import Mathlib

/-!
Verification development for the real-estate feasibility calculator.

The repository ships two source files:
* `src/app.py` — despite its name, a React/JavaScript module.  Its pure
  computation kernel (helpers `calcDisabledParking`, `computeFarCounted`,
  the `useScenarioCompute` derivation, and the CSV export/import handlers)
  is embedded below in namespace `App`.
* `src/streamlit_app.py` — a Python/Streamlit script that is a textual
  merge of several snapshots of the same application; many names are bound
  twice, in which case straight-line execution order makes the later
  binding the effective one.  Its computation section and the Thai legal
  sub-rules are embedded below in namespace `Streamlit`, following that
  straight-line reading (each definition's doc comment records the source
  lines it comes from).

JavaScript / Python numbers are modelled as `ℚ`; `Math.floor` / `math.floor`
as `Int.floor` and `Math.ceil` / `math.ceil` as `Int.ceil`.
-/

namespace App

/-- Disabled-parking rule, `calcDisabledParking` from src/app.py lines 25-31:
0 cars below 1, 2 up to 50, 3 up to 100, then 3 plus one per further
started hundred. -/
def calcDisabledParking (totalCars : ℚ) : ℚ :=
  if totalCars ≤ 0 then 0
  else if totalCars ≤ 50 then 2
  else if totalCars ≤ 100 then 3
  else 3 + ((max 0 ⌈(totalCars - 100) / 100⌉ : ℤ) : ℚ)

/-- FAR counting helper, `computeFarCounted` from src/app.py lines 34-42.
Main below-grade area counts only with `countBasement`; when `countParking`
is set, BOTH the conventional legs (`pcAG`, `pcBG`) and the automated legs
(`paAG`, `paBG`) are added, basements again gated by `countBasement`. -/
def computeFarCounted (mainAG mainBG pcAG pcBG paAG paBG : ℚ)
    (countParking countBasement : Bool) : ℚ :=
  let fc1 := mainAG + (if countBasement then mainBG else 0)
  if countParking then
    fc1 + (pcAG + (if countBasement then pcBG else 0))
        + (paAG + (if countBasement then paBG else 0))
  else fc1

/-- A user-defined cost line item (element of `customCosts`), per the shape
used by src/app.py lines 676 and 220-225: a `kind` string and a `rate`. -/
structure CustomCost where
  id : ℚ
  name : String
  kind : String
  rate : ℚ
deriving DecidableEq

/-- The `clamp` helper from src/app.py line 14: `Math.min(hi, Math.max(lo, v))`. -/
def clamp (v lo hi : ℚ) : ℚ := min hi (max lo v)

/-- The Scenario record of src/app.py (fields of `DEFAULT_SCENARIO`,
lines 65-132, restricted to the fields the compute hook reads). -/
structure Scenario where
  siteArea : ℚ
  far : ℚ
  bType : String
  osr : ℚ
  greenPctOfOSR : ℚ
  siteWidth : ℚ
  siteDepth : ℚ
  setbackFront : ℚ
  setbackRear : ℚ
  setbackSideL : ℚ
  setbackSideR : ℚ
  mainFloorsAG : ℚ
  mainFloorsBG : ℚ
  parkingConFloorsAG : ℚ
  parkingConFloorsBG : ℚ
  parkingAutoFloorsAG : ℚ
  parkingAutoFloorsBG : ℚ
  ftf : ℚ
  maxHeight : ℚ
  mainPlateMode : String
  mainPlatePct : ℚ
  mainFloorPlate : ℚ
  parkingConPlate : ℚ
  parkingAutoPlate : ℚ
  bayConv : ℚ
  circConvPct : ℚ
  bayAuto : ℚ
  circAutoPct : ℚ
  openLotArea : ℚ
  openLotBay : ℚ
  openLotCircPct : ℚ
  nlaPctOfCFA : ℚ
  nsaPctOfCFA : ℚ
  gfaOverCfaPct : ℚ
  countParkingInFAR : Bool
  countBasementInFAR : Bool
  costArchPerSqm : ℚ
  costStructPerSqm : ℚ
  costMEPPerSqm : ℚ
  costGreenPerSqm : ℚ
  costConventionalPerCar : ℚ
  costAutoPerCar : ℚ
  costOpenLotPerCar : ℚ
  customCosts : List CustomCost
  budget : ℚ

/- The derived quantities of the compute hook `useScenarioCompute`
(src/app.py lines 137-258), one definition per source binding. -/

/-- src/app.py line 138: `bayConv * (1 + circConvPct)`. -/
def effAreaConCar (s : Scenario) : ℚ := s.bayConv * (1 + s.circConvPct)

/-- src/app.py line 139. -/
def effAreaAutoCar (s : Scenario) : ℚ := s.bayAuto * (1 + s.circAutoPct)

/-- src/app.py line 140. -/
def effAreaOpenCar (s : Scenario) : ℚ := s.openLotBay * (1 + s.openLotCircPct)

/-- src/app.py line 143: `clamp(state.far, 1, 10)` (the FAR range of
`RULES.base`, line 49). -/
def farClamped (s : Scenario) : ℚ := clamp s.far 1 10

/-- src/app.py line 144: `maxGFA = siteArea * far` with the clamped FAR. -/
def maxGFA (s : Scenario) : ℚ := s.siteArea * farClamped s

/-- src/app.py lines 147-155: buildable area from dims and setbacks
(`Number(x || 0)` is the number itself for numeric fields). -/
def buildableW (s : Scenario) : ℚ :=
  max 0 (max 0 s.siteWidth - (max 0 s.setbackSideL + max 0 s.setbackSideR))

/-- src/app.py line 154. -/
def buildableD (s : Scenario) : ℚ :=
  max 0 (max 0 s.siteDepth - (max 0 s.setbackFront + max 0 s.setbackRear))

/-- src/app.py line 155. -/
def buildableArea (s : Scenario) : ℚ := buildableW s * buildableD s

/-- src/app.py line 158. -/
def openSpaceArea (s : Scenario) : ℚ := s.osr / 100 * s.siteArea

/-- src/app.py line 159. -/
def greenArea (s : Scenario) : ℚ := s.greenPctOfOSR / 100 * openSpaceArea s

/-- src/app.py lines 162-165: main plate, absolute or % of buildable. -/
def mainPlateAbs (s : Scenario) : ℚ :=
  if s.mainPlateMode = "pct" then
    max 0 (min (buildableArea s) (s.mainPlatePct / 100 * buildableArea s))
  else max 0 s.mainFloorPlate

/-- src/app.py line 168. -/
def mainCFA_AG (s : Scenario) : ℚ := s.mainFloorsAG * mainPlateAbs s

/-- src/app.py line 169. -/
def mainCFA_BG (s : Scenario) : ℚ := s.mainFloorsBG * mainPlateAbs s

/-- src/app.py line 170. -/
def parkConCFA_AG (s : Scenario) : ℚ := s.parkingConFloorsAG * s.parkingConPlate

/-- src/app.py line 171. -/
def parkConCFA_BG (s : Scenario) : ℚ := s.parkingConFloorsBG * s.parkingConPlate

/-- src/app.py line 172. -/
def parkAutoCFA_AG (s : Scenario) : ℚ := s.parkingAutoFloorsAG * s.parkingAutoPlate

/-- src/app.py line 173. -/
def parkAutoCFA_BG (s : Scenario) : ℚ := s.parkingAutoFloorsBG * s.parkingAutoPlate

/-- src/app.py line 175. -/
def mainCFA (s : Scenario) : ℚ := mainCFA_AG s + mainCFA_BG s

/-- src/app.py line 176. -/
def parkConCFA (s : Scenario) : ℚ := parkConCFA_AG s + parkConCFA_BG s

/-- src/app.py line 177. -/
def parkAutoCFA (s : Scenario) : ℚ := parkAutoCFA_AG s + parkAutoCFA_BG s

/-- src/app.py line 178. -/
def totalCFA (s : Scenario) : ℚ := mainCFA s + parkConCFA s + parkAutoCFA s

/-- src/app.py line 181 (above-grade floors only). -/
def estHeight (s : Scenario) : ℚ :=
  s.ftf * (s.mainFloorsAG + s.parkingConFloorsAG + s.parkingAutoFloorsAG)

/-- src/app.py line 182. -/
def heightOk (s : Scenario) : Bool := decide (estHeight s ≤ s.maxHeight)

/-- src/app.py line 185: `Math.floor(parkingConPlate / Math.max(1, effAreaConCar))`. -/
def convCarsPerFloor (s : Scenario) : ℤ := ⌊s.parkingConPlate / max 1 (effAreaConCar s)⌋

/-- src/app.py line 186. -/
def autoCarsPerFloor (s : Scenario) : ℤ := ⌊s.parkingAutoPlate / max 1 (effAreaAutoCar s)⌋

/-- src/app.py line 187. -/
def totalConvCars (s : Scenario) : ℚ :=
  (convCarsPerFloor s : ℚ) * (s.parkingConFloorsAG + s.parkingConFloorsBG)

/-- src/app.py line 188. -/
def totalAutoCars (s : Scenario) : ℚ :=
  (autoCarsPerFloor s : ℚ) * (s.parkingAutoFloorsAG + s.parkingAutoFloorsBG)

/-- src/app.py line 189. -/
def openLotCars (s : Scenario) : ℤ := ⌊s.openLotArea / max 1 (effAreaOpenCar s)⌋

/-- src/app.py line 190. -/
def totalCars (s : Scenario) : ℚ := totalConvCars s + totalAutoCars s + (openLotCars s : ℚ)

/-- src/app.py line 191. -/
def disabledCars (s : Scenario) : ℚ := calcDisabledParking (totalCars s)

/-- src/app.py lines 194-197: the FAR-counted area of the live scenario. -/
def farCounted (s : Scenario) : ℚ :=
  computeFarCounted (mainCFA_AG s) (mainCFA_BG s) (parkConCFA_AG s) (parkConCFA_BG s)
    (parkAutoCFA_AG s) (parkAutoCFA_BG s) s.countParkingInFAR s.countBasementInFAR

/-- src/app.py line 198: `farOk = farCounted <= maxGFA`. -/
def farOk (s : Scenario) : Bool := decide (farCounted s ≤ maxGFA s)

/-- src/app.py line 201. -/
def nla (s : Scenario) : ℚ := s.nlaPctOfCFA / 100 * totalCFA s

/-- src/app.py line 202. -/
def nsa (s : Scenario) : ℚ := s.nsaPctOfCFA / 100 * totalCFA s

/-- src/app.py line 203. -/
def gfa (s : Scenario) : ℚ := s.gfaOverCfaPct / 100 * totalCFA s

/-- src/app.py line 206. -/
def ratioNLA_CFA (s : Scenario) : ℚ :=
  if 0 < totalCFA s then nla s / totalCFA s else 0

/-- src/app.py line 207. -/
def ratioNSA_GFA (s : Scenario) : ℚ := if 0 < gfa s then nsa s / gfa s else 0

/-- src/app.py line 208. -/
def ratioNSA_CFA (s : Scenario) : ℚ :=
  if 0 < totalCFA s then nsa s / totalCFA s else 0

/-- src/app.py line 209. -/
def ratioNLA_GFA (s : Scenario) : ℚ := if 0 < gfa s then nla s / gfa s else 0

/-- src/app.py line 212. -/
def baseCostPerSqm (s : Scenario) : ℚ :=
  s.costArchPerSqm + s.costStructPerSqm + s.costMEPPerSqm

/-- src/app.py line 213. -/
def constructionCost (s : Scenario) : ℚ := totalCFA s * baseCostPerSqm s

/-- src/app.py line 214. -/
def greenCost (s : Scenario) : ℚ := greenArea s * s.costGreenPerSqm

/-- src/app.py lines 215-218. -/
def parkingCost (s : Scenario) : ℚ :=
  totalConvCars s * s.costConventionalPerCar +
  totalAutoCars s * s.costAutoPerCar +
  (openLotCars s : ℚ) * s.costOpenLotPerCar

/-- src/app.py lines 220-225: the reduce over `customCosts`.  A `per_sqm`
item adds `rate * totalCFA`, `per_car_conv` adds `rate * totalConvCars`,
`per_car_auto` adds `rate * totalAutoCars`, and ANY other kind falls
through to `return sum + i.rate`. -/
def customCostFold (tCFA tConv tAuto : ℚ) (costs : List CustomCost) : ℚ :=
  costs.foldl
    (fun sum i =>
      if i.kind = "per_sqm" then sum + i.rate * tCFA
      else if i.kind = "per_car_conv" then sum + i.rate * tConv
      else if i.kind = "per_car_auto" then sum + i.rate * tAuto
      else sum + i.rate) 0

/-- src/app.py lines 220-225 applied to the live scenario. -/
def customCostTotal (s : Scenario) : ℚ :=
  customCostFold (totalCFA s) (totalConvCars s) (totalAutoCars s) s.customCosts

/-- The contribution of a single custom-cost item, read off the branches
of the reduce in src/app.py lines 220-225. -/
def itemContribution (tCFA tConv tAuto : ℚ) (i : CustomCost) : ℚ :=
  if i.kind = "per_sqm" then i.rate * tCFA
  else if i.kind = "per_car_conv" then i.rate * tConv
  else if i.kind = "per_car_auto" then i.rate * tAuto
  else i.rate

/-- src/app.py line 227. -/
def capexTotal (s : Scenario) : ℚ :=
  constructionCost s + greenCost s + parkingCost s + customCostTotal s

/-- src/app.py line 228: `budgetOk = budget > 0 ? capexTotal <= budget : true`. -/
def budgetOk (s : Scenario) : Bool :=
  if 0 < s.budget then decide (capexTotal s ≤ s.budget) else true



/-- `DEFAULT_SCENARIO` from src/app.py lines 65-132 (the fields the
compute hook reads; `ftf = 3.2` is `16/5`). -/
def defaultScenario : Scenario where
  siteArea := 8000
  far := 5
  bType := "Housing"
  osr := 30
  greenPctOfOSR := 40
  siteWidth := 80
  siteDepth := 100
  setbackFront := 6
  setbackRear := 6
  setbackSideL := 3
  setbackSideR := 3
  mainFloorsAG := 20
  mainFloorsBG := 0
  parkingConFloorsAG := 3
  parkingConFloorsBG := 0
  parkingAutoFloorsAG := 0
  parkingAutoFloorsBG := 0
  ftf := 16/5
  maxHeight := 120
  mainPlateMode := "abs"
  mainPlatePct := 80
  mainFloorPlate := 1500
  parkingConPlate := 1200
  parkingAutoPlate := 800
  bayConv := 25
  circConvPct := 0
  bayAuto := 16
  circAutoPct := 0
  openLotArea := 0
  openLotBay := 25
  openLotCircPct := 0
  nlaPctOfCFA := 70
  nsaPctOfCFA := 80
  gfaOverCfaPct := 95
  countParkingInFAR := true
  countBasementInFAR := false
  costArchPerSqm := 16000
  costStructPerSqm := 22000
  costMEPPerSqm := 20000
  costGreenPerSqm := 4500
  costConventionalPerCar := 125000
  costAutoPerCar := 432000
  costOpenLotPerCar := 60000
  customCosts := []
  budget := 500000000

/-- A degenerate scenario (every envelope quantity zero except a green
area costing 2 currency units) against a budget of 1.  Used to witness
the budget policy on a concrete input. -/
def tinyBudgetScenario : Scenario where
  siteArea := 2
  far := 1
  bType := "Housing"
  osr := 100
  greenPctOfOSR := 100
  siteWidth := 0
  siteDepth := 0
  setbackFront := 0
  setbackRear := 0
  setbackSideL := 0
  setbackSideR := 0
  mainFloorsAG := 0
  mainFloorsBG := 0
  parkingConFloorsAG := 0
  parkingConFloorsBG := 0
  parkingAutoFloorsAG := 0
  parkingAutoFloorsBG := 0
  ftf := 0
  maxHeight := 0
  mainPlateMode := "abs"
  mainPlatePct := 0
  mainFloorPlate := 0
  parkingConPlate := 0
  parkingAutoPlate := 0
  bayConv := 25
  circConvPct := 0
  bayAuto := 16
  circAutoPct := 0
  openLotArea := 0
  openLotBay := 25
  openLotCircPct := 0
  nlaPctOfCFA := 70
  nsaPctOfCFA := 80
  gfaOverCfaPct := 95
  countParkingInFAR := true
  countBasementInFAR := false
  costArchPerSqm := 0
  costStructPerSqm := 0
  costMEPPerSqm := 0
  costGreenPerSqm := 1
  costConventionalPerCar := 0
  costAutoPerCar := 0
  costOpenLotPerCar := 0
  customCosts := []
  budget := 1

/-- A scenario on which the legally-counted FAR area and the actual GFA
fall on opposite sides of `maxGFA`: one 100 m² main floor on a 70 m² site
with FAR 1 (`maxGFA = 70`) and `gfaOverCfaPct = 50` (`gfa = 50`). -/
def farCexScenario : Scenario where
  siteArea := 70
  far := 1
  bType := "Housing"
  osr := 0
  greenPctOfOSR := 0
  siteWidth := 0
  siteDepth := 0
  setbackFront := 0
  setbackRear := 0
  setbackSideL := 0
  setbackSideR := 0
  mainFloorsAG := 1
  mainFloorsBG := 0
  parkingConFloorsAG := 0
  parkingConFloorsBG := 0
  parkingAutoFloorsAG := 0
  parkingAutoFloorsBG := 0
  ftf := 0
  maxHeight := 0
  mainPlateMode := "abs"
  mainPlatePct := 0
  mainFloorPlate := 100
  parkingConPlate := 0
  parkingAutoPlate := 0
  bayConv := 25
  circConvPct := 0
  bayAuto := 16
  circAutoPct := 0
  openLotArea := 0
  openLotBay := 25
  openLotCircPct := 0
  nlaPctOfCFA := 70
  nsaPctOfCFA := 80
  gfaOverCfaPct := 50
  countParkingInFAR := true
  countBasementInFAR := false
  costArchPerSqm := 0
  costStructPerSqm := 0
  costMEPPerSqm := 0
  costGreenPerSqm := 0
  costConventionalPerCar := 0
  costAutoPerCar := 0
  costOpenLotPerCar := 0
  customCosts := []
  budget := 0

/-! ### CSV export/import (src/app.py lines 301-348)

`handleExportCSV` writes one `Field,Value` row per scenario entry
(`JSON.stringify` for object-typed values, JavaScript string conversion
for the rest) and joins rows with newlines; `handleImportCSV` splits the
text on newlines, keeps the nonempty lines, drops the header, splits each
line at its FIRST comma, trims both parts, and re-types the value: a cell
whose first non-whitespace character is an opening brace or bracket goes
through `JSON.parse` (kept as the plain string when parsing throws), a
cell matching the numeric pattern `[-+]?digits(.digits)?` becomes a
number, anything else stays a string.  JavaScript strings are modelled as
`List Char`.  JavaScript number rendering `String(x)` is modelled for
numbers with a finite decimal expansion (every finite double is such a
number; the e-notation JavaScript uses for extreme magnitudes is out of
model).  `JSON.parse` is modelled by a parser for exactly the
array-of-custom-cost-records documents the export emits, any other
bracket-led cell falling back to a plain string like the source's
`catch` branch. -/

/-- Decimal digit to character. -/
def digitChar (d : ℕ) : Char :=
  match d with
  | 0 => '0' | 1 => '1' | 2 => '2' | 3 => '3' | 4 => '4'
  | 5 => '5' | 6 => '6' | 7 => '7' | 8 => '8' | _ => '9'

/-- Character to decimal digit value. -/
def digitVal (c : Char) : ℕ := c.toNat - '0'.toNat

/-- Value of a most-significant-first digit run (the effect of JavaScript
number parsing on a digit string). -/
def digitsVal (cs : List Char) : ℕ := cs.foldl (fun a c => a * 10 + digitVal c) 0

/-- Fuelled base-10 rendering of a natural, most significant digit first
(empty for zero). -/
def natRenderAux : ℕ → ℕ → List Char
  | 0, _ => []
  | fuel + 1, n => if n = 0 then [] else natRenderAux fuel (n / 10) ++ [digitChar (n % 10)]

/-- Base-10 rendering of a natural number. -/
def natRender (n : ℕ) : List Char := if n = 0 then ['0'] else natRenderAux (n + 1) n

/-- JavaScript rendering of an integer-valued number. -/
def intRender (n : ℤ) : List Char :=
  (if n < 0 then ['-'] else []) ++ natRender n.natAbs

/-- Smallest `k` with `den ∣ 10 ^ k`, when one exists (it does exactly
for denominators of the form `2 ^ a * 5 ^ b`). -/
def findExp (d : ℕ) : Option ℕ := (List.range (d + 1)).find? fun k => 10 ^ k % d == 0

/-- Left-pad a digit run with zeros to the given length. -/
def padZeros (len : ℕ) (ds : List Char) : List Char :=
  List.replicate (len - ds.length) '0' ++ ds

/-- JavaScript `String(x)` for a finite-decimal rational: the integer
rendering when the denominator is 1, otherwise sign, integer part, `'.'`
and exactly `k` fraction digits for the least `k` with `den ∣ 10 ^ k`
(the shortest decimal, as JavaScript prints).  `none` when the rational
has no finite decimal expansion. -/
def renderNum (q : ℚ) : Option (List Char) :=
  match findExp q.den with
  | none => none
  | some 0 => some (intRender q.num)
  | some (k + 1) =>
    let m := q.num.natAbs * 10 ^ (k + 1) / q.den
    some ((if q.num < 0 then ['-'] else []) ++ natRender (m / 10 ^ (k + 1)) ++
      '.' :: padZeros (k + 1) (natRender (m % 10 ^ (k + 1))))

/-- The characters the import's numeric pattern is built from. -/
def numChar (c : Char) : Bool := c.isDigit || c == '-' || c == '+' || c == '.'

/-- Split an optional leading sign off a numeric cell, returning the sign
as a rational factor. -/
def numSign : List Char → ℚ × List Char
  | [] => (1, [])
  | c :: cs => if c == '-' then (-1, cs) else if c == '+' then (1, cs) else (1, c :: cs)

/-- The numeric test of src/app.py line 337: the cell matches
`^[-+]?\d+(\.\d+)?$` (in which case `Number(v)` is finite). -/
def numShape (cs : List Char) : Bool :=
  match ((numSign cs).2).splitOn '.' with
  | [d] => !List.isEmpty d && d.all Char.isDigit
  | [d1, d2] => (!List.isEmpty d1 && d1.all Char.isDigit) &&
      (!List.isEmpty d2 && d2.all Char.isDigit)
  | _ => false

/-- `Number(v)` on a cell of numeric shape: sign times integer part plus
fraction digits over the matching power of ten. -/
def numValue (cs : List Char) : ℚ :=
  match ((numSign cs).2).splitOn '.' with
  | [d] => (numSign cs).1 * (digitsVal d : ℚ)
  | [d1, d2] => (numSign cs).1 *
      ((digitsVal d1 : ℚ) + (digitsVal d2 : ℚ) / 10 ^ d2.length)
  | _ => 0

/-- A character `JSON.stringify` copies into a string literal verbatim
(no escaping needed): not a quote, not a backslash, not a control
character. -/
def plainChar (c : Char) : Bool := c != '"' && c != '\\' && decide (32 ≤ c.toNat)

/-- JSON chunk before the id value (an opening brace then a quoted
`id` key and colon). -/
def jsonA : List Char := ['\x7b', '"', 'i', 'd', '"', ':']

/-- JSON chunk between the id value and the name string (comma, quoted
`name` key, colon, opening quote). -/
def jsonB : List Char := [',', '"', 'n', 'a', 'm', 'e', '"', ':', '"']

/-- JSON chunk between the name string's closing quote and the kind
string. -/
def jsonC : List Char := [',', '"', 'k', 'i', 'n', 'd', '"', ':', '"']

/-- JSON chunk between the kind string's closing quote and the rate
value. -/
def jsonD : List Char := [',', '"', 'r', 'a', 't', 'e', '"', ':']

/-- `JSON.stringify` of one custom-cost record (property order is the
object's insertion order `id, name, kind, rate`); `none` when an id/rate
has no finite decimal rendering or a string field needs escaping. -/
def renderItem (i : CustomCost) : Option (List Char) :=
  match renderNum i.id, renderNum i.rate with
  | some idCs, some rateCs =>
    if i.name.data.all plainChar && i.kind.data.all plainChar then
      some (jsonA ++ idCs ++ jsonB ++ i.name.data ++ '"' :: jsonC ++ i.kind.data ++
        '"' :: jsonD ++ rateCs ++ ['\x7d'])
    else none
  | _, _ => none

/-- `JSON.stringify` of a nonempty list body: items joined with commas. -/
def renderItems : List CustomCost → Option (List Char)
  | [] => some []
  | [i] => renderItem i
  | i :: rest =>
    match renderItem i, renderItems rest with
    | some a, some b => some (a ++ ',' :: b)
    | _, _ => none

/-- `JSON.stringify` of the whole `customCosts` array. -/
def renderCustomCosts (l : List CustomCost) : Option (List Char) :=
  match l with
  | [] => some ['[', ']']
  | _ => (renderItems l).map fun body => '[' :: body ++ [']']

/-- Consume an expected literal chunk, returning the remainder. -/
def expect : List Char → List Char → Option (List Char)
  | [], cs => some cs
  | _ :: _, [] => none
  | p :: ps, c :: cs => if c = p then expect ps cs else none

/-- Consume a JSON string body up to and including the closing quote. -/
def scanString : List Char → Option (List Char × List Char)
  | [] => none
  | c :: cs =>
    if c = '"' then some ([], cs)
    else
      match scanString cs with
      | some (a, b) => some (c :: a, b)
      | none => none

/-- Parse one custom-cost record of the shape `renderItem` emits. -/
def parseItem (cs : List Char) : Option (CustomCost × List Char) :=
  match expect jsonA cs with
  | none => none
  | some cs1 =>
    let sp1 := List.span numChar cs1
    if numShape sp1.1 then
      match expect jsonB sp1.2 with
      | none => none
      | some cs3 =>
        match scanString cs3 with
        | none => none
        | some (nameCs, cs4) =>
          match expect jsonC cs4 with
          | none => none
          | some cs5 =>
            match scanString cs5 with
            | none => none
            | some (kindCs, cs6) =>
              match expect jsonD cs6 with
              | none => none
              | some cs7 =>
                let sp2 := List.span numChar cs7
                if numShape sp2.1 then
                  match sp2.2 with
                  | '\x7d' :: rest =>
                    some ({ id := numValue sp1.1, name := String.mk nameCs,
                            kind := String.mk kindCs, rate := numValue sp2.1 }, rest)
                  | _ => none
                else none
    else none

/-- Parse a comma-separated nonempty run of records up to the closing
bracket (fuelled by the input length). -/
def parseItems : ℕ → List Char → Option (List CustomCost × List Char)
  | 0, _ => none
  | fuel + 1, cs =>
    match parseItem cs with
    | none => none
    | some (i, rest) =>
      match rest with
      | ',' :: rest2 =>
        match parseItems fuel rest2 with
        | some (l, r) => some (i :: l, r)
        | none => none
      | ']' :: rest2 => some ([i], rest2)
      | _ => none

/-- `JSON.parse` specialised to the array documents the export emits; the
whole cell must be consumed. -/
def parseCustomCosts (cs : List Char) : Option (List CustomCost) :=
  match cs with
  | '[' :: rest =>
    if rest = [']'] then some []
    else
      match parseItems (rest.length + 1) rest with
      | some (l, []) => some l
      | _ => none
  | _ => none

/-- A JavaScript value held by a scenario field: a number, a string, a
boolean, or the custom-cost list (the only object-typed field). -/
inductive JsValue where
  | num (q : ℚ)
  | str (s : String)
  | bool (b : Bool)
  | list (items : List CustomCost)
deriving DecidableEq

/-- JavaScript `String.prototype.trim`. -/
def trimChars (cs : List Char) : List Char :=
  ((cs.dropWhile Char.isWhitespace).reverse.dropWhile Char.isWhitespace).reverse

/-- The test of src/app.py line 333: `/^\s*[\x7b\[]/` — the cell opens
with a brace or bracket after optional whitespace. -/
def leadsBracket (cs : List Char) : Bool :=
  match cs.dropWhile Char.isWhitespace with
  | c :: _ => c == '\x7b' || c == '['
  | [] => false

/-- The value re-typing of `handleImportCSV` (src/app.py lines 332-339)
applied to one already-trimmed cell. -/
def parseCell (cs : List Char) : JsValue :=
  if leadsBracket cs then
    match parseCustomCosts cs with
    | some l => JsValue.list l
    | none => JsValue.str (String.mk cs)
  else if numShape cs then JsValue.num (numValue cs)
  else JsValue.str (String.mk cs)

/-- The cell text `handleExportCSV` writes for one value: JavaScript
string conversion for numbers, strings and booleans, `JSON.stringify`
for the list. -/
def jsCell : JsValue → Option (List Char)
  | JsValue.num q => renderNum q
  | JsValue.str s => some s.data
  | JsValue.bool b => some (if b then "true".data else "false".data)
  | JsValue.list l => renderCustomCosts l

/-- Split a line at its first comma (src/app.py lines 328-331:
`line.indexOf(",")` then two slices; a comma-less line is dropped). -/
def splitFirstComma : List Char → Option (List Char × List Char)
  | [] => none
  | c :: cs =>
    if c = ',' then some ([], cs)
    else
      match splitFirstComma cs with
      | some (a, b) => some (c :: a, b)
      | none => none

/-- Import of one data line: split at the first comma and trim both
parts, then re-type the value. -/
def importRow (line : List Char) : Option (String × JsValue) :=
  match splitFirstComma line with
  | none => none
  | some (k, v) => some (String.mk (trimChars k), parseCell (trimChars v))

/-- The header line `Field,Value` (src/app.py line 19, via `createCSV`). -/
def headerChars : List Char := "Field,Value".data

/-- The data rows of `handleExportCSV`: `field ++ "," ++ cell` per entry. -/
def exportRows : List (String × JsValue) → Option (List (List Char))
  | [] => some []
  | (k, v) :: rest =>
    match jsCell v, exportRows rest with
    | some cell, some rs => some ((k.data ++ ',' :: cell) :: rs)
    | _, _ => none

/-- The full CSV text of `handleExportCSV`: header and rows joined with
newlines. -/
def exportCSVChars (fields : List (String × JsValue)) : Option (List Char) :=
  (exportRows fields).map fun rows => List.intercalate ['\n'] (headerChars :: rows)

/-- The patch `handleImportCSV` builds from a CSV text: split on
newlines, keep nonempty lines, drop the header, import each line
(comma-less lines drop out). -/
def importCSVChars (text : List Char) : List (String × JsValue) :=
  (((text.splitOn '\n').filter fun l => !List.isEmpty l).drop 1).filterMap importRow

/-- Modelled from the claim: the value each field is predicted to hold
after one export/import cycle — numbers, strings and lists survive,
booleans come back as the strings `"true"` / `"false"`. -/
def reimportedValue : JsValue → JsValue
  | JsValue.bool b => JsValue.str (if b then "true" else "false")
  | v => v

/-- A field name that survives the CSV row format: it contains no comma
(the row is split at its first comma) and no whitespace (`trim` leaves it
unchanged; in particular no newline). -/
def goodKey (k : String) : Prop :=
  (',' ∉ k.data) ∧ ∀ c ∈ k.data, c.isWhitespace = false

/-- A field value whose cell survives the import heuristics untouched.
Only string values carry conditions: the cell must not be mistaken for
JSON or for a number, must not break the row structure, and must not be
altered by `trim`. -/
def goodValue : JsValue → Prop
  | JsValue.str s =>
      leadsBracket s.data = false ∧ numShape s.data = false ∧
      ('\n' ∉ s.data) ∧
      (∀ c, s.data.head? = some c → c.isWhitespace = false) ∧
      (∀ c, s.data.getLast? = some c → c.isWhitespace = false)
  | _ => True

end App

namespace Streamlit

/-- Disabled-parking rule, `calc_disabled_parking` from
src/streamlit_app.py lines 101-106 (the second, effective binding of that
name; the first one at lines 66-71 is shadowed by it). -/
def calc_disabled_parking (total_cars : ℤ) : ℤ :=
  if total_cars ≤ 0 then 0
  else if total_cars ≤ 50 then 2
  else if total_cars ≤ 100 then 3
  else 3 + max 0 ⌈(((total_cars : ℚ) - 100) / 100)⌉

/-- FAR counting helper, `compute_far_counted` from src/streamlit_app.py
lines 112-125.  The merged body mixes two snapshots; the statements whose
identifiers actually match the parameter names `count_parking` /
`count_basement` (lines 121-124) are the ones embedded here: the automated
legs `paAG`/`paBG` are never added ("auto excluded from FAR by policy",
line 124). -/
def compute_far_counted (mainAG mainBG pcAG pcBG paAG paBG : ℚ)
    (count_parking count_basement : Bool) : ℚ :=
  let fc := mainAG + (if count_basement then mainBG else 0)
  if count_parking then fc + (pcAG + (if count_basement then pcBG else 0)) else fc

/-- A unit-type record as used by the legal sub-rules
(src/streamlit_app.py lines 361-365, 617-620): an integer `count`, a
size in m² and a bedroom count. -/
structure UnitType where
  count : ℤ
  size_sqm : ℚ
  bedrooms : ℚ

/-- The two legal jurisdictions accepted by `legal_parking_th`
(src/streamlit_app.py line 381 restricts the input to these two strings;
the source tests `location.upper() == "BKK"`, which on this domain is the
equality test modelled here). -/
inductive Location where
  | BKK
  | OUTSIDE
deriving DecidableEq

/-- Output record of `legal_parking_th` (src/streamlit_app.py lines 146-152). -/
structure LegalParking where
  size_based : ℚ
  area_based : ℤ
  legal_required : ℚ
  parking_pct : ℚ
  total_units : ℤ

/-- Thai statutory-parking sub-rule, `legal_parking_th` from
src/streamlit_app.py lines 128-152.  `(gfa or 0.0)` in the source equals
`gfa` as a number (`0.0 or 0.0` is `0.0`), so it is modelled as `gfa`. -/
def legal_parking_th (location : Location) (units : List UnitType) (gfa : ℚ) :
    LegalParking :=
  let is_bkk : Bool := location = Location.BKK
  let rooms_ge60 : ℤ :=
    ((units.filter fun u => decide ((60 : ℚ) ≤ u.size_sqm)).map fun u => u.count).sum
  let size_based : ℚ := (rooms_ge60 : ℚ) * (if is_bkk then 1 else 1/2)
  let area_quota : ℚ := if is_bkk then 120 else 240
  let area_based : ℤ := ⌈gfa / area_quota⌉
  let legal_required : ℚ := max size_based (area_based : ℚ)
  let total_units : ℤ := (units.map fun u => u.count).sum
  let parking_pct : ℚ :=
    if 0 < total_units then legal_required * 100 / (total_units : ℚ) else 0
  { size_based := size_based, area_based := area_based,
    legal_required := legal_required, parking_pct := parking_pct,
    total_units := total_units }

/-- The `clamp` helper from src/streamlit_app.py lines 55-56:
`min(hi, max(lo, v))`. -/
def clamp (v lo hi : ℚ) : ℚ := min hi (max lo v)

/-- Python `int(x)` truncates toward zero. -/
def pyInt (q : ℚ) : ℤ := if 0 ≤ q then ⌊q⌋ else ⌈q⌉

/-- The scenario dictionary of src/streamlit_app.py (keys of `DEFAULT`,
lines 235-284 plus the `location` key of the first `DEFAULT` at line 232,
restricted to the fields the compute section reads). -/
structure Scenario where
  siteArea : ℚ
  far : ℚ
  mainFloorsAG : ℚ
  mainFloorsBG : ℚ
  parkingConFloorsAG : ℚ
  parkingConFloorsBG : ℚ
  parkingAutoFloorsAG : ℚ
  parkingAutoFloorsBG : ℚ
  ftf : ℚ
  maxHeight : ℚ
  mainFloorPlate : ℚ
  parkingConPlate : ℚ
  parkingAutoPlate : ℚ
  bayConv : ℚ
  circConvPct : ℚ
  bayAuto : ℚ
  circAutoPct : ℚ
  openLotArea : ℚ
  openLotBay : ℚ
  openLotCircPct : ℚ
  gfaOverCfaPct : ℚ
  publicPctOfGFA : ℚ
  nlaPctOfPublic : ℚ
  bohPctOfGFA : ℚ
  servicePctOfGFA : ℚ
  countParkingInFAR : Bool
  countBasementInFAR : Bool
  costMainPerSqm : ℚ
  costParkConvPerSqm : ℚ
  costParkAutoPerSqm : ℚ
  budget : ℚ
  location : Location

/- The compute section of src/streamlit_app.py (lines 531-608), one
definition per effective source binding.  The file is a straight-line
script in which several names are bound more than once; the embedding
follows execution order, so the LATER binding of a rebound name is the
one every downstream use sees (each doc comment records the lines). -/

/-- src/streamlit_app.py line 533 (rebound identically at 555 as `effConv`). -/
def eff_con (s : Scenario) : ℚ := s.bayConv * (1 + s.circConvPct)

/-- src/streamlit_app.py line 534. -/
def eff_auto (s : Scenario) : ℚ := s.bayAuto * (1 + s.circAutoPct)

/-- src/streamlit_app.py line 535. -/
def eff_open (s : Scenario) : ℚ := s.openLotBay * (1 + s.openLotCircPct)

/-- src/streamlit_app.py line 538. -/
def mainCFA_AG (s : Scenario) : ℚ := s.mainFloorsAG * s.mainFloorPlate

/-- src/streamlit_app.py line 539. -/
def mainCFA_BG (s : Scenario) : ℚ := s.mainFloorsBG * s.mainFloorPlate

/-- src/streamlit_app.py line 540 (same value as `parkConCFA_AG`, line 451). -/
def pcCFA_AG (s : Scenario) : ℚ := s.parkingConFloorsAG * s.parkingConPlate

/-- src/streamlit_app.py line 541 (same value as `parkConCFA_BG`, line 452). -/
def pcCFA_BG (s : Scenario) : ℚ := s.parkingConFloorsBG * s.parkingConPlate

/-- src/streamlit_app.py line 542. -/
def paCFA_AG (s : Scenario) : ℚ := s.parkingAutoFloorsAG * s.parkingAutoPlate

/-- src/streamlit_app.py line 543. -/
def paCFA_BG (s : Scenario) : ℚ := s.parkingAutoFloorsBG * s.parkingAutoPlate

/-- src/streamlit_app.py line 545. -/
def mainCFA (s : Scenario) : ℚ := mainCFA_AG s + mainCFA_BG s

/-- src/streamlit_app.py line 546. -/
def parkConCFA (s : Scenario) : ℚ := pcCFA_AG s + pcCFA_BG s

/-- src/streamlit_app.py line 547. -/
def parkAutoCFA (s : Scenario) : ℚ := paCFA_AG s + paCFA_BG s

/-- src/streamlit_app.py line 548. -/
def totalCFA (s : Scenario) : ℚ := mainCFA s + parkConCFA s + parkAutoCFA s

/-- src/streamlit_app.py line 551. -/
def estHeight (s : Scenario) : ℚ :=
  s.ftf * (s.mainFloorsAG + s.parkingConFloorsAG + s.parkingAutoFloorsAG)

/-- src/streamlit_app.py line 552. -/
def heightOk (s : Scenario) : Bool := decide (estHeight s ≤ s.maxHeight)

/-- src/streamlit_app.py line 561 (the effective binding; it shadows the
one at line 558): `int(floor(plate / max(1, eff)))` guarded by `plate > 0`. -/
def convCarsPerFloor (s : Scenario) : ℤ :=
  if 0 < s.parkingConPlate then ⌊s.parkingConPlate / max 1 (eff_con s)⌋ else 0

/-- src/streamlit_app.py line 562. -/
def autoCarsPerFloor (s : Scenario) : ℤ :=
  if 0 < s.parkingAutoPlate then ⌊s.parkingAutoPlate / max 1 (eff_auto s)⌋ else 0

/-- src/streamlit_app.py line 563: `convCarsPerFloor * int(AG + BG)`. -/
def totalConvCars (s : Scenario) : ℤ :=
  convCarsPerFloor s * pyInt (s.parkingConFloorsAG + s.parkingConFloorsBG)

/-- src/streamlit_app.py line 564. -/
def totalAutoCars (s : Scenario) : ℤ :=
  autoCarsPerFloor s * pyInt (s.parkingAutoFloorsAG + s.parkingAutoFloorsBG)

/-- src/streamlit_app.py line 566 (rebinds line 565 with the same value). -/
def openLotCars (s : Scenario) : ℤ := ⌊s.openLotArea / max 1 (eff_open s)⌋

/-- src/streamlit_app.py line 567. -/
def totalCars (s : Scenario) : ℤ := totalConvCars s + totalAutoCars s + openLotCars s

/-- src/streamlit_app.py line 568. -/
def disabledCars (s : Scenario) : ℤ := calc_disabled_parking (totalCars s)

/-- src/streamlit_app.py line 573, the FIRST binding of `gfa`
(commented "GFA (actual) policy: mainCFA + parkConCFA (auto excluded;
open-lot excluded)", lines 571-572).  It is overwritten by the second
binding at line 586 before any downstream use. -/
def gfa_structural (s : Scenario) : ℚ := mainCFA s + parkConCFA s

/-- src/streamlit_app.py line 576, the effective binding of `maxGFA`:
`s["siteArea"] * s["far"]` with the RAW (unclamped) `far` field. -/
def maxGFA (s : Scenario) : ℚ := s.siteArea * s.far

/-- src/streamlit_app.py lines 579-582. -/
def farCounted (s : Scenario) : ℚ :=
  compute_far_counted (mainCFA_AG s) (mainCFA_BG s) (pcCFA_AG s) (pcCFA_BG s)
    (paCFA_AG s) (paCFA_BG s) s.countParkingInFAR s.countBasementInFAR

/-- src/streamlit_app.py line 583: `farOk = farCounted <= maxGFA`. -/
def farOk (s : Scenario) : Bool := decide (farCounted s ≤ maxGFA s)

/-- src/streamlit_app.py line 586, the SECOND and effective binding of
`gfa`: `(gfaOverCfaPct / 100) * totalCFA`. -/
def gfa (s : Scenario) : ℚ := s.gfaOverCfaPct / 100 * totalCFA s

/-- src/streamlit_app.py line 587. -/
def publicArea (s : Scenario) : ℚ := s.publicPctOfGFA / 100 * gfa s

/-- src/streamlit_app.py line 588. -/
def bohArea (s : Scenario) : ℚ := s.bohPctOfGFA / 100 * gfa s

/-- src/streamlit_app.py line 589. -/
def serviceArea (s : Scenario) : ℚ := s.servicePctOfGFA / 100 * gfa s

/-- src/streamlit_app.py line 590 (no clamp at zero). -/
def nsa (s : Scenario) : ℚ := gfa s - (publicArea s + bohArea s + serviceArea s)

/-- src/streamlit_app.py line 591 (NLA is a sub-fraction of Public). -/
def nla (s : Scenario) : ℚ := publicArea s * (s.nlaPctOfPublic / 100)

/-- src/streamlit_app.py line 594. -/
def de_NSA_over_GFA (s : Scenario) : ℚ := if 0 < gfa s then nsa s / gfa s else 0

/-- src/streamlit_app.py line 595. -/
def de_NSA_over_CFA (s : Scenario) : ℚ :=
  if 0 < totalCFA s then nsa s / totalCFA s else 0

/-- src/streamlit_app.py line 596. -/
def de_GFA_over_CFA (s : Scenario) : ℚ :=
  if 0 < totalCFA s then gfa s / totalCFA s else 0

/-- src/streamlit_app.py line 597. -/
def de_NLA_over_GFA (s : Scenario) : ℚ := if 0 < gfa s then nla s / gfa s else 0

/-- src/streamlit_app.py line 600. -/
def costMain (s : Scenario) : ℚ := mainCFA s * s.costMainPerSqm

/-- src/streamlit_app.py line 601. -/
def costParkConv (s : Scenario) : ℚ := parkConCFA s * s.costParkConvPerSqm

/-- src/streamlit_app.py line 602. -/
def costParkAuto (s : Scenario) : ℚ := parkAutoCFA s * s.costParkAutoPerSqm

/-- src/streamlit_app.py line 603. -/
def projectCost (s : Scenario) : ℚ := costMain s + costParkConv s + costParkAuto s

/-- src/streamlit_app.py line 604:
`budgetOk = (projectCost <= budget) if budget > 0 else True`. -/
def budgetOk (s : Scenario) : Bool :=
  if 0 < s.budget then decide (projectCost s ≤ s.budget) else true

/-- The `DEFAULT` scenario dictionary of src/streamlit_app.py (effective
second binding, lines 235-284; `gfaOverCfaPct = 95` from the first
binding's line 215, which `ensure_defaults` cannot supply because the
second `DEFAULT` lacks the key; `location = "BKK"` from line 232;
`ftf = 3.2` is `16/5`). -/
def defaultScenario : Scenario where
  siteArea := 8000
  far := 5
  mainFloorsAG := 20
  mainFloorsBG := 0
  parkingConFloorsAG := 3
  parkingConFloorsBG := 0
  parkingAutoFloorsAG := 0
  parkingAutoFloorsBG := 0
  ftf := 16/5
  maxHeight := 120
  mainFloorPlate := 1500
  parkingConPlate := 1200
  parkingAutoPlate := 800
  bayConv := 25
  circConvPct := 0
  bayAuto := 16
  circAutoPct := 0
  openLotArea := 0
  openLotBay := 25
  openLotCircPct := 0
  gfaOverCfaPct := 95
  publicPctOfGFA := 10
  nlaPctOfPublic := 40
  bohPctOfGFA := 8
  servicePctOfGFA := 2
  countParkingInFAR := true
  countBasementInFAR := false
  costMainPerSqm := 30000
  costParkConvPerSqm := 18000
  costParkAutoPerSqm := 25000
  budget := 500000000
  location := Location.BKK

/-- A tiny minimal streamlit scenario used to witness the budget policy:
one main floor of 1 m² at 2 currency units per m², so the project cost
is exactly 2 against a budget of 1. -/
def tinyBudgetScenario : Scenario where
  siteArea := 0
  far := 1
  mainFloorsAG := 1
  mainFloorsBG := 0
  parkingConFloorsAG := 0
  parkingConFloorsBG := 0
  parkingAutoFloorsAG := 0
  parkingAutoFloorsBG := 0
  ftf := 0
  maxHeight := 0
  mainFloorPlate := 1
  parkingConPlate := 0
  parkingAutoPlate := 0
  bayConv := 25
  circConvPct := 0
  bayAuto := 16
  circAutoPct := 0
  openLotArea := 0
  openLotBay := 25
  openLotCircPct := 0
  gfaOverCfaPct := 95
  publicPctOfGFA := 10
  nlaPctOfPublic := 40
  bohPctOfGFA := 8
  servicePctOfGFA := 2
  countParkingInFAR := true
  countBasementInFAR := false
  costMainPerSqm := 2
  costParkConvPerSqm := 0
  costParkAutoPerSqm := 0
  budget := 1
  location := Location.BKK

/-- The single-unit-type mix of the claim's concrete legal-parking case:
100 units of 65 m² with 2 bedrooms. -/
def bkkUnits : List UnitType := [{ count := 100, size_sqm := 65, bedrooms := 2 }]

/-- The DEFAULT scenario with `publicPctOfGFA = 50`, `bohPctOfGFA = 40`,
`servicePctOfGFA = 30`: every percentage field is individually inside
`[0,100]`, but the three GFA fractions sum to 120%. -/
def overProgrammedScenario : Scenario :=
  { defaultScenario with publicPctOfGFA := 50, bohPctOfGFA := 40, servicePctOfGFA := 30 }

end Streamlit

section DisabledParkingLemmas

/-- On integer inputs the JS and the Python disabled-parking rules agree. -/
lemma calcDisabledParking_intCast (n : ℤ) :
    App.calcDisabledParking (n : ℚ) = ((Streamlit.calc_disabled_parking n : ℤ) : ℚ) := by
  unfold App.calcDisabledParking Streamlit.calc_disabled_parking
  have h0 : ((n : ℚ) ≤ 0) ↔ (n ≤ 0) := by exact_mod_cast Iff.rfl
  have h50 : ((n : ℚ) ≤ 50) ↔ (n ≤ 50) := by exact_mod_cast Iff.rfl
  have h100 : ((n : ℚ) ≤ 100) ↔ (n ≤ 100) := by exact_mod_cast Iff.rfl
  split_ifs with a1 a2 a3 <;>
    simp_all [h0, h50, h100] <;> push_cast <;> ring

lemma calc_disabled_parking_nonpos {n : ℤ} (h : n ≤ 0) :
    Streamlit.calc_disabled_parking n = 0 := by
  simp [Streamlit.calc_disabled_parking, h]

lemma calc_disabled_parking_le50 {n : ℤ} (h1 : 1 ≤ n) (h2 : n ≤ 50) :
    Streamlit.calc_disabled_parking n = 2 := by
  have h0 : ¬ n ≤ 0 := by omega
  simp [Streamlit.calc_disabled_parking, h0, h2]

lemma calc_disabled_parking_le100 {n : ℤ} (h1 : 51 ≤ n) (h2 : n ≤ 100) :
    Streamlit.calc_disabled_parking n = 3 := by
  have h0 : ¬ n ≤ 0 := by omega
  have h50 : ¬ n ≤ 50 := by omega
  simp [Streamlit.calc_disabled_parking, h0, h50, h2]

lemma ceil_hundredths_pos {n : ℤ} (h : 100 < n) :
    0 < ⌈(((n : ℚ) - 100) / 100)⌉ := by
  apply Int.ceil_pos.mpr
  have : (100 : ℚ) < (n : ℚ) := by exact_mod_cast h
  apply div_pos (by linarith) (by norm_num)

lemma calc_disabled_parking_gt100 {n : ℤ} (h : 100 < n) :
    Streamlit.calc_disabled_parking n = 3 + ⌈(((n : ℚ) - 100) / 100)⌉ := by
  have h0 : ¬ n ≤ 0 := by omega
  have h50 : ¬ n ≤ 50 := by omega
  have h100 : ¬ n ≤ 100 := by omega
  simp [Streamlit.calc_disabled_parking, h0, h50, h100,
    max_eq_right (ceil_hundredths_pos h).le]

lemma calc_disabled_parking_mono : Monotone Streamlit.calc_disabled_parking := by
  intro a b hab
  have hmax : ∀ c : ℤ, (0 : ℤ) ≤ max 0 c := fun c => le_max_left 0 c
  unfold Streamlit.calc_disabled_parking
  have hceil : ⌈(((a : ℚ) - 100) / 100)⌉ ≤ ⌈(((b : ℚ) - 100) / 100)⌉ := by
    apply Int.ceil_le_ceil
    have : (a : ℚ) ≤ (b : ℚ) := by exact_mod_cast hab
    linarith
  split_ifs with a1 a2 a3 b1 b2 b3 b4 b5 b6 b7 b8 b9 <;>
    first
      | omega
      | linarith [hmax ⌈(((b : ℚ) - 100) / 100)⌉]
      | exact add_le_add le_rfl (max_le_max le_rfl hceil)

end DisabledParkingLemmas



/-- C3.  The claim states `farOk` is true exactly when `gfa ≤ maxGFA`.
Counterexample on src/app.py's engine: on `farCexScenario` the derived
`gfa = 50` does not exceed `maxGFA = 70`, yet `farOk` is `false`, because
the code (src/app.py line 198) compares `farCounted = 100` — not `gfa` —
against `maxGFA`. -/
theorem farOk_counterexample :
    App.gfa App.farCexScenario = 50 ∧
    App.maxGFA App.farCexScenario = 70 ∧
    App.gfa App.farCexScenario ≤ App.maxGFA App.farCexScenario ∧
    App.farCounted App.farCexScenario = 100 ∧
    App.farOk App.farCexScenario = false := by
  have hmode : ¬ ("abs" : String) = "pct" := by decide
  have hgfa : App.gfa App.farCexScenario = 50 := by
    norm_num [App.gfa, App.totalCFA, App.mainCFA, App.parkConCFA, App.parkAutoCFA,
      App.mainCFA_AG, App.mainCFA_BG, App.parkConCFA_AG, App.parkConCFA_BG,
      App.parkAutoCFA_AG, App.parkAutoCFA_BG, App.mainPlateAbs, App.farCexScenario,
      hmode]
  have hmax : App.maxGFA App.farCexScenario = 70 := by
    norm_num [App.maxGFA, App.farClamped, App.clamp, App.farCexScenario,
      max_def, min_def]
  have hfc : App.farCounted App.farCexScenario = 100 := by
    norm_num [App.farCounted, App.computeFarCounted, App.mainCFA_AG, App.mainCFA_BG,
      App.parkConCFA_AG, App.parkConCFA_BG, App.parkAutoCFA_AG, App.parkAutoCFA_BG,
      App.mainPlateAbs, App.farCexScenario, hmode]
  refine ⟨hgfa, hmax, ?_, hfc, ?_⟩
  · rw [hgfa, hmax]; norm_num
  · unfold App.farOk
    rw [hfc, hmax]
    simp only [decide_eq_false_iff_not, not_le]
    norm_num

/-- C3 (amended).  In BOTH engines the FAR verdict compares the
legally-counted `farCounted` area — not the actual `gfa` — against
`maxGFA`: `farOk = (farCounted ≤ maxGFA)` (src/app.py line 198,
src/streamlit_app.py line 583). -/
theorem farOk_compares_farCounted :
    (∀ s : App.Scenario, App.farOk s = true ↔ App.farCounted s ≤ App.maxGFA s) ∧
    (∀ s : Streamlit.Scenario,
      Streamlit.farOk s = true ↔ Streamlit.farCounted s ≤ Streamlit.maxGFA s) := by
  constructor
  · intro s; simp [App.farOk]
  · intro s; simp [Streamlit.farOk]

/-- C4.  The claim states the compute engine always clamps `far` into
`[1,10]` before use.  Counterexample on src/streamlit_app.py: with
`far = 20` on a 100 m² site the effective `maxGFA` binding (line 576,
`siteArea * s["far"]`) yields `2000`, not `siteArea * clamp(far,1,10) =
1000` — the clamped binding of line 445-446 is overwritten before use. -/
theorem maxGFA_unclamped_counterexample :
    Streamlit.maxGFA { Streamlit.defaultScenario with far := 20, siteArea := 100 } = 2000 ∧
    ({ Streamlit.defaultScenario with far := 20, siteArea := 100 } : Streamlit.Scenario).siteArea *
      Streamlit.clamp ({ Streamlit.defaultScenario with far := 20, siteArea := 100 } : Streamlit.Scenario).far 1 10 = 1000 ∧
    ¬ Streamlit.maxGFA { Streamlit.defaultScenario with far := 20, siteArea := 100 } =
      ({ Streamlit.defaultScenario with far := 20, siteArea := 100 } : Streamlit.Scenario).siteArea *
        Streamlit.clamp ({ Streamlit.defaultScenario with far := 20, siteArea := 100 } : Streamlit.Scenario).far 1 10 := by
  have h1 : Streamlit.maxGFA { Streamlit.defaultScenario with far := 20, siteArea := 100 } = 2000 := by
    norm_num [Streamlit.maxGFA, Streamlit.defaultScenario]
  have h2 : ({ Streamlit.defaultScenario with far := 20, siteArea := 100 } : Streamlit.Scenario).siteArea *
      Streamlit.clamp ({ Streamlit.defaultScenario with far := 20, siteArea := 100 } : Streamlit.Scenario).far 1 10 = 1000 := by
    norm_num [Streamlit.clamp, Streamlit.defaultScenario, max_def, min_def]
  exact ⟨h1, h2, by rw [h1, h2]; norm_num⟩

/-- C4 (amended).  src/app.py's engine does clamp: its `maxGFA` is
`siteArea * clamp(far, 1, 10)` and the clamped FAR always lies in
`[1,10]`.  src/streamlit_app.py's effective `maxGFA` is `siteArea * far`
with the raw, unclamped `far` field. -/
theorem maxGFA_clamping :
    (∀ s : App.Scenario,
      App.maxGFA s = s.siteArea * App.clamp s.far 1 10 ∧
      1 ≤ App.farClamped s ∧ App.farClamped s ≤ 10) ∧
    (∀ s : Streamlit.Scenario, Streamlit.maxGFA s = s.siteArea * s.far) := by
  constructor
  · intro s
    refine ⟨rfl, ?_, ?_⟩
    · unfold App.farClamped App.clamp
      exact le_min (by norm_num) (le_max_left 1 s.far)
    · unfold App.farClamped App.clamp
      exact min_le_left 10 _
  · intro s; rfl

/-- C2.  The claim (and the code's own policy comment, src/streamlit_app.py
lines 571-572) states the derived GFA equals `mainCFA + parkConCFA` and
never changes with automated-parking inputs.  In the source the binding
`gfa = mainCFA + parkConCFA` (line 573) is overwritten at line 586 by
`gfa = (gfaOverCfaPct/100) * totalCFA`, which every downstream use sees:
on the DEFAULT scenario the effective `gfa` is `31920`, not
`mainCFA + parkConCFA = 33600`, and raising `parkingAutoFloorsAG` from 0
to 1 moves it to `32680`. -/
theorem gfa_breakdown_code_bug :
    Streamlit.mainCFA Streamlit.defaultScenario +
      Streamlit.parkConCFA Streamlit.defaultScenario = 33600 ∧
    Streamlit.gfa_structural Streamlit.defaultScenario = 33600 ∧
    Streamlit.gfa Streamlit.defaultScenario = 31920 ∧
    ¬ Streamlit.gfa Streamlit.defaultScenario =
        Streamlit.mainCFA Streamlit.defaultScenario +
          Streamlit.parkConCFA Streamlit.defaultScenario ∧
    Streamlit.gfa { Streamlit.defaultScenario with parkingAutoFloorsAG := 1 } = 32680 ∧
    ¬ Streamlit.gfa { Streamlit.defaultScenario with parkingAutoFloorsAG := 1 } =
        Streamlit.gfa Streamlit.defaultScenario := by
  have e1 : Streamlit.mainCFA Streamlit.defaultScenario +
      Streamlit.parkConCFA Streamlit.defaultScenario = 33600 := by
    norm_num [Streamlit.mainCFA, Streamlit.parkConCFA, Streamlit.mainCFA_AG,
      Streamlit.mainCFA_BG, Streamlit.pcCFA_AG, Streamlit.pcCFA_BG,
      Streamlit.defaultScenario]
  have e2 : Streamlit.gfa Streamlit.defaultScenario = 31920 := by
    norm_num [Streamlit.gfa, Streamlit.totalCFA, Streamlit.mainCFA,
      Streamlit.parkConCFA, Streamlit.parkAutoCFA, Streamlit.mainCFA_AG,
      Streamlit.mainCFA_BG, Streamlit.pcCFA_AG, Streamlit.pcCFA_BG,
      Streamlit.paCFA_AG, Streamlit.paCFA_BG, Streamlit.defaultScenario]
  have e3 : Streamlit.gfa { Streamlit.defaultScenario with parkingAutoFloorsAG := 1 } = 32680 := by
    norm_num [Streamlit.gfa, Streamlit.totalCFA, Streamlit.mainCFA,
      Streamlit.parkConCFA, Streamlit.parkAutoCFA, Streamlit.mainCFA_AG,
      Streamlit.mainCFA_BG, Streamlit.pcCFA_AG, Streamlit.pcCFA_BG,
      Streamlit.paCFA_AG, Streamlit.paCFA_BG, Streamlit.defaultScenario]
  refine ⟨e1, ?_, e2, ?_, e3, ?_⟩
  · rw [Streamlit.gfa_structural, e1]
  · rw [e1, e2]; norm_num
  · rw [e2, e3]; norm_num


/-- C6.  The Thai legal-parking sub-rule (`legal_parking_th`,
src/streamlit_app.py lines 128-152) follows the spec formulas: qualifying
rooms are those of at least 60 m², the size-based requirement multiplies
them by 1 inside Bangkok and 1/2 outside, the area-based requirement is
`ceil(gfa / (120 or 240))`, and the governing requirement is the larger
of the two; on the concrete case (BKK, 100 units of 65 m², gfa 12000) all
outputs are 100. -/
theorem legal_parking_th_spec :
    (∀ (loc : Streamlit.Location) (units : List Streamlit.UnitType) (g : ℚ),
      (∀ u ∈ units, 0 ≤ u.count) → 0 ≤ g →
      ((Streamlit.legal_parking_th loc units g).size_based =
          ((((units.filter fun u => decide ((60 : ℚ) ≤ u.size_sqm)).map
              fun u => u.count).sum : ℤ) : ℚ) *
            (if loc = Streamlit.Location.BKK then (1 : ℚ) else 1/2) ∧
        (Streamlit.legal_parking_th loc units g).area_based =
          ⌈g / (if loc = Streamlit.Location.BKK then (120 : ℚ) else 240)⌉ ∧
        (Streamlit.legal_parking_th loc units g).legal_required =
          max (Streamlit.legal_parking_th loc units g).size_based
            (((Streamlit.legal_parking_th loc units g).area_based : ℤ) : ℚ))) ∧
    ((Streamlit.legal_parking_th Streamlit.Location.BKK Streamlit.bkkUnits 12000).size_based = 100 ∧
     (Streamlit.legal_parking_th Streamlit.Location.BKK Streamlit.bkkUnits 12000).area_based = 100 ∧
     (Streamlit.legal_parking_th Streamlit.Location.BKK Streamlit.bkkUnits 12000).legal_required = 100 ∧
     (Streamlit.legal_parking_th Streamlit.Location.BKK Streamlit.bkkUnits 12000).parking_pct = 100 ∧
     (Streamlit.legal_parking_th Streamlit.Location.BKK Streamlit.bkkUnits 12000).total_units = 100) := by
  constructor
  · intro loc units g _ _
    cases loc <;> simp [Streamlit.legal_parking_th]
  · have h65 : (60 : ℚ) ≤ 65 := by norm_num
    have hquot : ((12000 : ℚ) / 120) = 100 := by norm_num
    have hc : ⌈((12000 : ℚ) / 120)⌉ = (100 : ℤ) := by
      rw [hquot]; exact Int.ceil_ofNat 100
    refine ⟨?_, ?_, ?_, ?_, ?_⟩ <;>
      simp [Streamlit.legal_parking_th, Streamlit.bkkUnits, h65, hc] <;>
      norm_num

/-- Witness for C6: the general formula applied at the concrete BKK case. -/
theorem legal_parking_th_spec_witness :
    (Streamlit.legal_parking_th Streamlit.Location.BKK Streamlit.bkkUnits 12000).legal_required =
      max (Streamlit.legal_parking_th Streamlit.Location.BKK Streamlit.bkkUnits 12000).size_based
        (((Streamlit.legal_parking_th Streamlit.Location.BKK Streamlit.bkkUnits 12000).area_based : ℤ) : ℚ) := by
  exact (legal_parking_th_spec.1 Streamlit.Location.BKK Streamlit.bkkUnits 12000
    (by intro u hu; simp [Streamlit.bkkUnits] at hu; rw [hu]; norm_num)
    (by norm_num)).2.2

namespace Streamlit


lemma overProgrammed_gfa : gfa overProgrammedScenario = 31920 := by
  norm_num [gfa, totalCFA, mainCFA, parkConCFA, parkAutoCFA, mainCFA_AG,
    mainCFA_BG, pcCFA_AG, pcCFA_BG, paCFA_AG, paCFA_BG,
    overProgrammedScenario, defaultScenario]

lemma overProgrammed_nsa : nsa overProgrammedScenario = -6384 := by
  norm_num [nsa, publicArea, bohArea, serviceArea, gfa, totalCFA, mainCFA,
    parkConCFA, parkAutoCFA, mainCFA_AG, mainCFA_BG, pcCFA_AG, pcCFA_BG,
    paCFA_AG, paCFA_BG, overProgrammedScenario, defaultScenario]

end Streamlit

/-- C8.  The claim states every DE ratio lies in `[0,1]` whenever each
percentage field is individually in `[0,100]`.  Counterexample: with
`publicPctOfGFA = 50`, `bohPctOfGFA = 40`, `servicePctOfGFA = 30` (each in
`[0,100]`, summing to 120), line 590 of src/streamlit_app.py computes a
negative `nsa`, so `de_NSA_over_GFA = -1/5 < 0`. -/
theorem de_ratio_counterexample :
    Streamlit.de_NSA_over_GFA Streamlit.overProgrammedScenario = -(1/5) ∧
    ¬ 0 ≤ Streamlit.de_NSA_over_GFA Streamlit.overProgrammedScenario ∧
    ¬ (0 ≤ Streamlit.de_NSA_over_GFA Streamlit.overProgrammedScenario ∧
       Streamlit.de_NSA_over_GFA Streamlit.overProgrammedScenario ≤ 1) := by
  have hval : Streamlit.de_NSA_over_GFA Streamlit.overProgrammedScenario = -(1/5) := by
    unfold Streamlit.de_NSA_over_GFA
    rw [if_pos (by rw [Streamlit.overProgrammed_gfa]; norm_num),
      Streamlit.overProgrammed_gfa, Streamlit.overProgrammed_nsa]
    norm_num
  refine ⟨hval, ?_, ?_⟩
  · rw [hval]; norm_num
  · rw [hval]; intro h; have := h.1; norm_num at this

/-- C8 (amended).  For a well-formed streamlit Scenario (percentages in
`[0,100]`, floor counts and plates nonnegative): `GFA/CFA` and `NLA/GFA`
always lie in `[0,1]`; every zero-denominator case yields exactly `0`;
and `NSA/GFA` and `NSA/CFA` lie in `[0,1]` under the additional condition
— which the counterexample shows is necessary — that the three GFA
fractions (`public + boh + service`) sum to at most 100%. -/
theorem de_ratios_bounded (s : Streamlit.Scenario)
    (hf1 : 0 ≤ s.mainFloorsAG) (hf2 : 0 ≤ s.mainFloorsBG)
    (hf3 : 0 ≤ s.parkingConFloorsAG) (hf4 : 0 ≤ s.parkingConFloorsBG)
    (hf5 : 0 ≤ s.parkingAutoFloorsAG) (hf6 : 0 ≤ s.parkingAutoFloorsBG)
    (hp1 : 0 ≤ s.mainFloorPlate) (hp2 : 0 ≤ s.parkingConPlate)
    (hp3 : 0 ≤ s.parkingAutoPlate)
    (hg0 : 0 ≤ s.gfaOverCfaPct) (hg1 : s.gfaOverCfaPct ≤ 100)
    (hpub0 : 0 ≤ s.publicPctOfGFA) (hpub1 : s.publicPctOfGFA ≤ 100)
    (hboh0 : 0 ≤ s.bohPctOfGFA) (hboh1 : s.bohPctOfGFA ≤ 100)
    (hsv0 : 0 ≤ s.servicePctOfGFA) (hsv1 : s.servicePctOfGFA ≤ 100)
    (hnla0 : 0 ≤ s.nlaPctOfPublic) (hnla1 : s.nlaPctOfPublic ≤ 100) :
    (0 ≤ Streamlit.de_GFA_over_CFA s ∧ Streamlit.de_GFA_over_CFA s ≤ 1) ∧
    (0 ≤ Streamlit.de_NLA_over_GFA s ∧ Streamlit.de_NLA_over_GFA s ≤ 1) ∧
    (Streamlit.totalCFA s = 0 →
      Streamlit.de_GFA_over_CFA s = 0 ∧ Streamlit.de_NSA_over_GFA s = 0 ∧
      Streamlit.de_NSA_over_CFA s = 0 ∧ Streamlit.de_NLA_over_GFA s = 0) ∧
    (Streamlit.gfa s = 0 →
      Streamlit.de_NSA_over_GFA s = 0 ∧ Streamlit.de_NLA_over_GFA s = 0) ∧
    (s.publicPctOfGFA + s.bohPctOfGFA + s.servicePctOfGFA ≤ 100 →
      (0 ≤ Streamlit.de_NSA_over_GFA s ∧ Streamlit.de_NSA_over_GFA s ≤ 1) ∧
      (0 ≤ Streamlit.de_NSA_over_CFA s ∧ Streamlit.de_NSA_over_CFA s ≤ 1)) := by
  have hCFA : 0 ≤ Streamlit.totalCFA s := by
    unfold Streamlit.totalCFA Streamlit.mainCFA Streamlit.parkConCFA
      Streamlit.parkAutoCFA Streamlit.mainCFA_AG Streamlit.mainCFA_BG
      Streamlit.pcCFA_AG Streamlit.pcCFA_BG Streamlit.paCFA_AG Streamlit.paCFA_BG
    have m1 := mul_nonneg hf1 hp1
    have m2 := mul_nonneg hf2 hp1
    have m3 := mul_nonneg hf3 hp2
    have m4 := mul_nonneg hf4 hp2
    have m5 := mul_nonneg hf5 hp3
    have m6 := mul_nonneg hf6 hp3
    linarith
  have hgq0 : 0 ≤ s.gfaOverCfaPct / 100 := div_nonneg hg0 (by norm_num)
  have hgq1 : s.gfaOverCfaPct / 100 ≤ 1 :=
    (div_le_one (by norm_num : (0 : ℚ) < 100)).mpr hg1
  have hgfa0 : 0 ≤ Streamlit.gfa s := mul_nonneg hgq0 hCFA
  have hgfa_le : Streamlit.gfa s ≤ Streamlit.totalCFA s := by
    calc Streamlit.gfa s = s.gfaOverCfaPct / 100 * Streamlit.totalCFA s := rfl
      _ ≤ 1 * Streamlit.totalCFA s := mul_le_mul_of_nonneg_right hgq1 hCFA
      _ = Streamlit.totalCFA s := one_mul _
  have hpubq0 : 0 ≤ s.publicPctOfGFA / 100 := div_nonneg hpub0 (by norm_num)
  have hpubq1 : s.publicPctOfGFA / 100 ≤ 1 :=
    (div_le_one (by norm_num : (0 : ℚ) < 100)).mpr hpub1
  have hnlaq0 : 0 ≤ s.nlaPctOfPublic / 100 := div_nonneg hnla0 (by norm_num)
  have hnlaq1 : s.nlaPctOfPublic / 100 ≤ 1 :=
    (div_le_one (by norm_num : (0 : ℚ) < 100)).mpr hnla1
  have hnla_nonneg : 0 ≤ Streamlit.nla s := by
    unfold Streamlit.nla Streamlit.publicArea
    exact mul_nonneg (mul_nonneg hpubq0 hgfa0) hnlaq0
  have hnla_le : Streamlit.nla s ≤ Streamlit.gfa s := by
    have hcoef : s.publicPctOfGFA / 100 * (s.nlaPctOfPublic / 100) ≤ 1 :=
      mul_le_one hpubq1 hnlaq0 hnlaq1
    calc Streamlit.nla s
        = s.publicPctOfGFA / 100 * (s.nlaPctOfPublic / 100) * Streamlit.gfa s := by
          unfold Streamlit.nla Streamlit.publicArea; ring
      _ ≤ 1 * Streamlit.gfa s := mul_le_mul_of_nonneg_right hcoef hgfa0
      _ = Streamlit.gfa s := one_mul _
  refine ⟨?_, ?_, ?_, ?_, ?_⟩
  · unfold Streamlit.de_GFA_over_CFA
    by_cases hc : 0 < Streamlit.totalCFA s
    · rw [if_pos hc]
      exact ⟨div_nonneg hgfa0 hCFA, (div_le_one hc).mpr hgfa_le⟩
    · rw [if_neg hc]; norm_num
  · unfold Streamlit.de_NLA_over_GFA
    by_cases hc : 0 < Streamlit.gfa s
    · rw [if_pos hc]
      exact ⟨div_nonneg hnla_nonneg hgfa0, (div_le_one hc).mpr hnla_le⟩
    · rw [if_neg hc]; norm_num
  · intro h0
    have hz : Streamlit.gfa s = 0 := by
      unfold Streamlit.gfa; rw [h0]; ring
    refine ⟨?_, ?_, ?_, ?_⟩ <;>
      simp [Streamlit.de_GFA_over_CFA, Streamlit.de_NSA_over_GFA,
        Streamlit.de_NSA_over_CFA, Streamlit.de_NLA_over_GFA, h0, hz]
  · intro hz
    constructor <;>
      simp [Streamlit.de_NSA_over_GFA, Streamlit.de_NLA_over_GFA, hz]
  · intro hsum
    have hpub_area : 0 ≤ Streamlit.publicArea s := by
      unfold Streamlit.publicArea; exact mul_nonneg hpubq0 hgfa0
    have hboh_area : 0 ≤ Streamlit.bohArea s := by
      unfold Streamlit.bohArea
      exact mul_nonneg (div_nonneg hboh0 (by norm_num)) hgfa0
    have hsv_area : 0 ≤ Streamlit.serviceArea s := by
      unfold Streamlit.serviceArea
      exact mul_nonneg (div_nonneg hsv0 (by norm_num)) hgfa0
    have hnsa0 : 0 ≤ Streamlit.nsa s := by
      have hfac : 0 ≤ 1 - (s.publicPctOfGFA + s.bohPctOfGFA + s.servicePctOfGFA) / 100 := by
        rw [sub_nonneg]
        exact (div_le_one (by norm_num : (0 : ℚ) < 100)).mpr hsum
      have : Streamlit.nsa s =
          Streamlit.gfa s *
            (1 - (s.publicPctOfGFA + s.bohPctOfGFA + s.servicePctOfGFA) / 100) := by
        unfold Streamlit.nsa Streamlit.publicArea Streamlit.bohArea Streamlit.serviceArea
        ring
      rw [this]
      exact mul_nonneg hgfa0 hfac
    have hnsa_le : Streamlit.nsa s ≤ Streamlit.gfa s := by
      unfold Streamlit.nsa
      linarith
    constructor
    · unfold Streamlit.de_NSA_over_GFA
      by_cases hc : 0 < Streamlit.gfa s
      · rw [if_pos hc]
        exact ⟨div_nonneg hnsa0 hgfa0, (div_le_one hc).mpr hnsa_le⟩
      · rw [if_neg hc]; norm_num
    · unfold Streamlit.de_NSA_over_CFA
      by_cases hc : 0 < Streamlit.totalCFA s
      · rw [if_pos hc]
        exact ⟨div_nonneg hnsa0 hCFA,
          (div_le_one hc).mpr (le_trans hnsa_le hgfa_le)⟩
      · rw [if_neg hc]; norm_num

/-- Witness for C8: the bounded-ratio theorem applied to the well-formed
DEFAULT scenario (whose three GFA fractions sum to 20%). -/
theorem de_ratios_bounded_witness :
    (0 ≤ Streamlit.de_GFA_over_CFA Streamlit.defaultScenario ∧
      Streamlit.de_GFA_over_CFA Streamlit.defaultScenario ≤ 1) ∧
    (0 ≤ Streamlit.de_NSA_over_GFA Streamlit.defaultScenario ∧
      Streamlit.de_NSA_over_GFA Streamlit.defaultScenario ≤ 1) := by
  have h := de_ratios_bounded Streamlit.defaultScenario
    (by norm_num [Streamlit.defaultScenario]) (by norm_num [Streamlit.defaultScenario])
    (by norm_num [Streamlit.defaultScenario]) (by norm_num [Streamlit.defaultScenario])
    (by norm_num [Streamlit.defaultScenario]) (by norm_num [Streamlit.defaultScenario])
    (by norm_num [Streamlit.defaultScenario]) (by norm_num [Streamlit.defaultScenario])
    (by norm_num [Streamlit.defaultScenario]) (by norm_num [Streamlit.defaultScenario])
    (by norm_num [Streamlit.defaultScenario]) (by norm_num [Streamlit.defaultScenario])
    (by norm_num [Streamlit.defaultScenario]) (by norm_num [Streamlit.defaultScenario])
    (by norm_num [Streamlit.defaultScenario]) (by norm_num [Streamlit.defaultScenario])
    (by norm_num [Streamlit.defaultScenario]) (by norm_num [Streamlit.defaultScenario])
    (by norm_num [Streamlit.defaultScenario])
  exact ⟨h.1, (h.2.2.2.2 (by norm_num [Streamlit.defaultScenario])).1⟩

/-- C5.  Both disabled-parking rules (`calcDisabledParking` in src/app.py
lines 25-31 and `calc_disabled_parking` in src/streamlit_app.py lines
101-106) realise the exact step function of the claim on every integer
car count: 0 for `totalCars ≤ 0`, 2 for `1..50`, 3 for `51..100`, and
`3 + ceil((totalCars - 100)/100)` above 100; the stated sample values
hold and both functions are monotonically non-decreasing. -/
theorem calcDisabledParking_step_spec :
    (∀ n : ℤ, n ≤ 0 →
      Streamlit.calc_disabled_parking n = 0 ∧ App.calcDisabledParking (n : ℚ) = 0) ∧
    (∀ n : ℤ, 1 ≤ n → n ≤ 50 →
      Streamlit.calc_disabled_parking n = 2 ∧ App.calcDisabledParking (n : ℚ) = 2) ∧
    (∀ n : ℤ, 51 ≤ n → n ≤ 100 →
      Streamlit.calc_disabled_parking n = 3 ∧ App.calcDisabledParking (n : ℚ) = 3) ∧
    (∀ n : ℤ, 100 < n →
      Streamlit.calc_disabled_parking n = 3 + ⌈(((n : ℚ) - 100) / 100)⌉ ∧
      App.calcDisabledParking (n : ℚ) = 3 + (⌈(((n : ℚ) - 100) / 100)⌉ : ℚ)) ∧
    (Streamlit.calc_disabled_parking 0 = 0 ∧ Streamlit.calc_disabled_parking 50 = 2 ∧
     Streamlit.calc_disabled_parking 51 = 3 ∧ Streamlit.calc_disabled_parking 100 = 3 ∧
     Streamlit.calc_disabled_parking 101 = 4 ∧ Streamlit.calc_disabled_parking 250 = 5 ∧
     App.calcDisabledParking 0 = 0 ∧ App.calcDisabledParking 50 = 2 ∧
     App.calcDisabledParking 51 = 3 ∧ App.calcDisabledParking 100 = 3 ∧
     App.calcDisabledParking 101 = 4 ∧ App.calcDisabledParking 250 = 5) ∧
    (∀ a b : ℤ, a ≤ b →
      Streamlit.calc_disabled_parking a ≤ Streamlit.calc_disabled_parking b ∧
      App.calcDisabledParking (a : ℚ) ≤ App.calcDisabledParking (b : ℚ)) := by
  have s101 : Streamlit.calc_disabled_parking 101 = 4 := by
    have h := calc_disabled_parking_gt100 (n := 101) (by norm_num)
    have hc : ⌈(((101 : ℤ) : ℚ) - 100) / 100⌉ = (1 : ℤ) := by
      norm_num [Int.ceil_eq_iff]
    omega
  have s250 : Streamlit.calc_disabled_parking 250 = 5 := by
    have h := calc_disabled_parking_gt100 (n := 250) (by norm_num)
    have hc : ⌈(((250 : ℤ) : ℚ) - 100) / 100⌉ = (2 : ℤ) := by
      norm_num [Int.ceil_eq_iff]
    omega
  have appAt : ∀ n : ℤ, ∀ v : ℤ, Streamlit.calc_disabled_parking n = v →
      App.calcDisabledParking (n : ℚ) = (v : ℚ) := by
    intro n v hv
    rw [calcDisabledParking_intCast n, hv]
  refine ⟨?_, ?_, ?_, ?_, ?_, ?_⟩
  · intro n hn
    exact ⟨calc_disabled_parking_nonpos hn,
      by simpa using appAt n 0 (calc_disabled_parking_nonpos hn)⟩
  · intro n h1 h2
    exact ⟨calc_disabled_parking_le50 h1 h2,
      by simpa using appAt n 2 (calc_disabled_parking_le50 h1 h2)⟩
  · intro n h1 h2
    exact ⟨calc_disabled_parking_le100 h1 h2,
      by simpa using appAt n 3 (calc_disabled_parking_le100 h1 h2)⟩
  · intro n h
    refine ⟨calc_disabled_parking_gt100 h, ?_⟩
    have := appAt n _ (calc_disabled_parking_gt100 h)
    rw [this]; push_cast; ring
  · have a0 := appAt 0 0 (calc_disabled_parking_nonpos le_rfl)
    have a50 := appAt 50 2 (calc_disabled_parking_le50 (by norm_num) (by norm_num))
    have a51 := appAt 51 3 (calc_disabled_parking_le100 (by norm_num) (by norm_num))
    have a100 := appAt 100 3 (calc_disabled_parking_le100 (by norm_num) (by norm_num))
    have a101 := appAt 101 4 s101
    have a250 := appAt 250 5 s250
    push_cast at a0 a50 a51 a100 a101 a250
    exact ⟨calc_disabled_parking_nonpos le_rfl,
      calc_disabled_parking_le50 (by norm_num) (by norm_num),
      calc_disabled_parking_le100 (by norm_num) (by norm_num),
      calc_disabled_parking_le100 (by norm_num) (by norm_num),
      s101, s250, a0, a50, a51, a100, a101, a250⟩
  · intro a b hab
    refine ⟨calc_disabled_parking_mono hab, ?_⟩
    rw [calcDisabledParking_intCast a, calcDisabledParking_intCast b]
    exact_mod_cast calc_disabled_parking_mono hab

/-- Witness for C5: the step-function theorem applied at concrete inputs. -/
theorem calcDisabledParking_step_spec_witness :
    Streamlit.calc_disabled_parking 100 = 3 ∧
    App.calcDisabledParking ((101 : ℤ) : ℚ) =
      3 + (⌈((((101 : ℤ) : ℚ)) - 100) / 100⌉ : ℚ) ∧
    Streamlit.calc_disabled_parking 5 ≤ Streamlit.calc_disabled_parking 77 := by
  refine ⟨?_, ?_, ?_⟩
  · exact (calcDisabledParking_step_spec.2.2.1 100 (by norm_num) (by norm_num)).1
  · exact (calcDisabledParking_step_spec.2.2.2.1 101 (by norm_num)).2
  · exact (calcDisabledParking_step_spec.2.2.2.2.2 5 77 (by norm_num)).1

namespace App

lemma customCostFold_step (tCFA tConv tAuto acc : ℚ)
    (costs : List CustomCost) :
    (costs.foldl
      (fun sum i =>
        if i.kind = "per_sqm" then sum + i.rate * tCFA
        else if i.kind = "per_car_conv" then sum + i.rate * tConv
        else if i.kind = "per_car_auto" then sum + i.rate * tAuto
        else sum + i.rate) acc) =
      acc + (costs.map (itemContribution tCFA tConv tAuto)).sum := by
  induction costs generalizing acc with
  | nil => simp
  | cons head tail ih =>
    rw [List.foldl_cons, ih, List.map_cons, List.sum_cons]
    unfold itemContribution
    split_ifs <;> ring



lemma tinyBudget_capex : capexTotal tinyBudgetScenario = 2 := by
  norm_num [capexTotal, constructionCost, greenCost, parkingCost, customCostTotal,
    customCostFold, totalCFA, mainCFA, parkConCFA, parkAutoCFA, mainCFA_AG,
    mainCFA_BG, parkConCFA_AG, parkConCFA_BG, parkAutoCFA_AG, parkAutoCFA_BG,
    mainPlateAbs, greenArea, openSpaceArea, baseCostPerSqm, totalConvCars,
    totalAutoCars, openLotCars, convCarsPerFloor, autoCarsPerFloor,
    effAreaConCar, effAreaAutoCar, effAreaOpenCar, tinyBudgetScenario]

end App

/-- C10.  The custom-cost reduce of src/app.py lines 220-225 never skips
an item: the total is the sum of every item's contribution, and an item
whose kind is none of `per_sqm`, `per_car_conv`, `per_car_auto`
(including `lump_sum` and any unrecognized string) contributes its `rate`
unmodified. -/
theorem customCostTotal_no_item_skipped :
    (∀ (tCFA tConv tAuto : ℚ) (costs : List App.CustomCost),
      App.customCostFold tCFA tConv tAuto costs =
        (costs.map (App.itemContribution tCFA tConv tAuto)).sum) ∧
    (∀ (tCFA tConv tAuto : ℚ) (i : App.CustomCost),
      i.kind ≠ "per_sqm" → i.kind ≠ "per_car_conv" → i.kind ≠ "per_car_auto" →
      App.itemContribution tCFA tConv tAuto i = i.rate) ∧
    (∀ s : App.Scenario,
      App.customCostTotal s =
        (s.customCosts.map
          (App.itemContribution (App.totalCFA s) (App.totalConvCars s)
            (App.totalAutoCars s))).sum) := by
  refine ⟨?_, ?_, ?_⟩
  · intro tCFA tConv tAuto costs
    unfold App.customCostFold
    rw [App.customCostFold_step]
    ring
  · intro tCFA tConv tAuto i h1 h2 h3
    simp [App.itemContribution, h1, h2, h3]
  · intro s
    unfold App.customCostTotal App.customCostFold
    rw [App.customCostFold_step]
    ring

/-- Witness for C10: a `lump_sum` item and an unrecognized `misc` item
both contribute their raw rate, and a two-item list sums both. -/
theorem customCostTotal_no_item_skipped_witness :
    App.itemContribution 5 6 7 { id := 1, name := "FFE", kind := "lump_sum", rate := 11 } = 11 ∧
    App.itemContribution 5 6 7 { id := 2, name := "misc", kind := "misc", rate := 13 } = 13 ∧
    App.customCostFold 5 6 7
      [{ id := 1, name := "FFE", kind := "lump_sum", rate := 11 },
       { id := 3, name := "area", kind := "per_sqm", rate := 2 }] =
      ([(11 : ℚ), 2 * 5]).sum := by
  refine ⟨?_, ?_, ?_⟩
  · exact customCostTotal_no_item_skipped.2.1 5 6 7 _
      (by decide) (by decide) (by decide)
  · exact customCostTotal_no_item_skipped.2.1 5 6 7 _
      (by decide) (by decide) (by decide)
  · rw [customCostTotal_no_item_skipped.1 5 6 7, List.map_cons, List.map_cons,
      List.map_nil,
      customCostTotal_no_item_skipped.2.1 5 6 7 _ (by decide) (by decide) (by decide)]
    norm_num [App.itemContribution]

/-- C7.  Budget policy of both engines (src/app.py line 228,
src/streamlit_app.py line 604): a zero budget always passes
("unconstrained"), and a positive budget passes exactly when the computed
total cost does not exceed it; in particular a budget of 1 against a
total cost above 1 fails. -/
theorem budgetOk_policy :
    (∀ s : App.Scenario, s.budget = 0 → App.budgetOk s = true) ∧
    (∀ s : App.Scenario, 0 < s.budget →
      (App.budgetOk s = true ↔ App.capexTotal s ≤ s.budget)) ∧
    (∀ s : App.Scenario, s.budget = 1 → 1 < App.capexTotal s →
      App.budgetOk s = false) ∧
    (∀ s : Streamlit.Scenario, s.budget = 0 → Streamlit.budgetOk s = true) ∧
    (∀ s : Streamlit.Scenario, 0 < s.budget →
      (Streamlit.budgetOk s = true ↔ Streamlit.projectCost s ≤ s.budget)) ∧
    (∀ s : Streamlit.Scenario, s.budget = 1 → 1 < Streamlit.projectCost s →
      Streamlit.budgetOk s = false) := by
  refine ⟨?_, ?_, ?_, ?_, ?_, ?_⟩
  · intro s h; simp [App.budgetOk, h]
  · intro s h; simp [App.budgetOk, h]
  · intro s h hc
    unfold App.budgetOk
    rw [h, if_pos (show (0 : ℚ) < 1 by norm_num)]
    simp only [decide_eq_false_iff_not, not_le]
    exact hc
  · intro s h; simp [Streamlit.budgetOk, h]
  · intro s h; simp [Streamlit.budgetOk, h]
  · intro s h hc
    unfold Streamlit.budgetOk
    rw [h, if_pos (show (0 : ℚ) < 1 by norm_num)]
    simp only [decide_eq_false_iff_not, not_le]
    exact hc

/-- Witness for C7: the policy applied to concrete scenarios — the tiny
scenario (total cost 2) passes with its budget zeroed out and fails with
its budget of 1. -/
theorem budgetOk_policy_witness :
    App.budgetOk { App.tinyBudgetScenario with budget := 0 } = true ∧
    App.budgetOk App.tinyBudgetScenario = false := by
  constructor
  · exact budgetOk_policy.1 _ rfl
  · refine budgetOk_policy.2.2.1 App.tinyBudgetScenario rfl ?_
    rw [App.tinyBudget_capex]; norm_num

/-- C1.  The claim states that `computeFarCounted` never adds the
automated-parking legs.  src/app.py's `computeFarCounted` (lines 34-42)
refutes this: at `(100, 20, 30, 40, 50, 60, countParking = true,
countBasement = true)` it returns `300`, not the claimed
`100 + 20 + (30 + 40) = 190` — the automated legs `50 + 60` are added. -/
theorem computeFarCounted_counterexample :
    App.computeFarCounted 100 20 30 40 50 60 true true = 300 ∧
    ¬ App.computeFarCounted 100 20 30 40 50 60 true true =
        100 + 20 + (30 + 40) := by
  constructor <;> norm_num [App.computeFarCounted]

/-- C1 (amended).  For all areas and flags: src/app.py's
`computeFarCounted` returns
`mainAG + (mainBG if countBasement) + (pcAG + (pcBG if countBasement)
+ paAG + (paBG if countBasement) if countParking)` — automated legs ARE
added when `countParking` is set — while src/streamlit_app.py's
`compute_far_counted` returns the formula of the original claim, which
never depends on `paAG`/`paBG`. -/
theorem computeFarCounted_formula (a b c d e f : ℚ) (cp cb : Bool) :
    App.computeFarCounted a b c d e f cp cb =
      a + (if cb then b else 0) +
        (if cp then (c + (if cb then d else 0)) + (e + (if cb then f else 0)) else 0) ∧
    Streamlit.compute_far_counted a b c d e f cp cb =
      a + (if cb then b else 0) + (if cp then c + (if cb then d else 0) else 0) := by
  unfold App.computeFarCounted Streamlit.compute_far_counted
  cases cp <;> cases cb <;> constructor <;> simp <;> ring

/-- C9.  The claim states every scalar field's value is reproduced
exactly by an export/import cycle.  Counterexample: a Boolean field.
`handleExportCSV` writes `false` as the cell text `false`, and
`handleImportCSV` (src/app.py lines 332-339) has no boolean branch — the
cell neither opens with a bracket nor matches the numeric pattern, so the
field comes back as the STRING `"false"`, not the boolean `false` (and
as a JavaScript condition that string is truthy). -/
theorem csv_roundtrip_counterexample :
    (App.exportCSVChars [("countBasementInFAR", App.JsValue.bool false)]).map
        App.importCSVChars =
      some [("countBasementInFAR", App.JsValue.str "false")] ∧
    App.JsValue.str "false" ≠ App.JsValue.bool false := by
  exact ⟨by decide, by decide⟩

section CsvLemmas

open App

lemma digitVal_digitChar {d : ℕ} (h : d < 10) : digitVal (digitChar d) = d := by
  interval_cases d <;> decide

lemma digitChar_props {d : ℕ} (h : d < 10) :
    (digitChar d).isDigit = true ∧ numChar (digitChar d) = true ∧
    digitChar d ≠ '.' ∧ digitChar d ≠ '\n' ∧ digitChar d ≠ ',' ∧
    digitChar d ≠ '"' ∧ (digitChar d).isWhitespace = false ∧
    digitChar d ≠ '\x7b' ∧ digitChar d ≠ '[' ∧ digitChar d ≠ ']' ∧
    digitChar d ≠ '\x7d' ∧ plainChar (digitChar d) = true ∧
    digitChar d ≠ '-' ∧ digitChar d ≠ '+' := by
  interval_cases d <;> decide

lemma digitsVal_append_singleton (ds : List Char) (c : Char) :
    digitsVal (ds ++ [c]) = digitsVal ds * 10 + digitVal c := by
  simp [digitsVal, List.foldl_append]

/-- All structural facts about the fuelled renderer at once: its value,
that it emits only digit characters, and its length bound. -/
lemma natRenderAux_spec :
    ∀ fuel n, n < 10 ^ fuel →
      digitsVal (natRenderAux fuel n) = n ∧
      (∀ c ∈ natRenderAux fuel n, ∃ d, d < 10 ∧ c = digitChar d) := by
  intro fuel
  induction fuel with
  | zero =>
    intro n hn
    simp only [pow_zero, Nat.lt_one_iff] at hn
    subst hn
    exact ⟨by simp [natRenderAux, digitsVal], by simp [natRenderAux]⟩
  | succ fuel ih =>
    intro n hn
    by_cases h0 : n = 0
    · subst h0
      exact ⟨by simp [natRenderAux, digitsVal], by simp [natRenderAux]⟩
    · have hdiv : n / 10 < 10 ^ fuel := by
        rw [Nat.div_lt_iff_lt_mul (by norm_num)]
        calc n < 10 ^ (fuel + 1) := hn
          _ = 10 ^ fuel * 10 := by ring
      obtain ⟨ihv, ihd⟩ := ih (n / 10) hdiv
      have hmod : n % 10 < 10 := Nat.mod_lt _ (by norm_num)
      constructor
      · rw [natRenderAux, if_neg h0, digitsVal_append_singleton, ihv,
          digitVal_digitChar hmod]
        omega
      · intro c hc
        rw [natRenderAux, if_neg h0] at hc
        rcases List.mem_append.mp hc with h | h
        · exact ihd c h
        · rcases List.mem_singleton.mp h with rfl
          exact ⟨n % 10, hmod, rfl⟩

lemma natRender_spec (n : ℕ) :
    digitsVal (natRender n) = n ∧
    (∀ c ∈ natRender n, ∃ d, d < 10 ∧ c = digitChar d) ∧
    natRender n ≠ [] := by
  unfold natRender
  by_cases h0 : n = 0
  · subst h0
    refine ⟨by decide, ?_, by decide⟩
    intro c hc
    rw [if_pos rfl] at hc
    rcases List.mem_singleton.mp hc with rfl
    exact ⟨0, by norm_num, rfl⟩
  · rw [if_neg h0]
    have hlt : n < 10 ^ (n + 1) := by
      calc n < 2 ^ n := Nat.lt_two_pow n
        _ ≤ 10 ^ n := Nat.pow_le_pow_left (by norm_num) n
        _ ≤ 10 ^ (n + 1) := Nat.pow_le_pow_right (by norm_num) (Nat.le_succ n)
    obtain ⟨hv, hd⟩ := natRenderAux_spec (n + 1) n hlt
    refine ⟨hv, hd, ?_⟩
    intro hnil
    rw [hnil] at hv
    exact h0 (by simpa [digitsVal] using hv.symm)

lemma natRender_length_le {n L : ℕ} (h : n < 10 ^ L) (hL : 1 ≤ L) :
    (natRender n).length ≤ L := by
  have key : ∀ L fuel n, n < 10 ^ L → 1 ≤ L → (natRenderAux fuel n).length ≤ L := by
    intro L
    induction L with
    | zero => intro fuel n _ hL1; omega
    | succ L ihL =>
      intro fuel n hn _
      cases fuel with
      | zero => simp [natRenderAux]
      | succ fuel =>
        by_cases hz : n = 0
        · subst hz; simp [natRenderAux]
        · rw [natRenderAux, if_neg hz]
          simp only [List.length_append, List.length_singleton]
          rcases Nat.lt_or_ge n 10 with hsmall | hbig
          · have hdz : n / 10 = 0 := Nat.div_eq_of_lt hsmall
            have : natRenderAux fuel (n / 10) = [] := by
              cases fuel <;> simp [natRenderAux, hdz]
            rw [this]
            simp
          · have hL1 : 1 ≤ L := by
              by_contra hc
              push_neg at hc
              interval_cases L
              simp at hn
              omega
            have hdiv : n / 10 < 10 ^ L := by
              rw [Nat.div_lt_iff_lt_mul (by norm_num)]
              calc n < 10 ^ (L + 1) := hn
                _ = 10 ^ L * 10 := by ring
            have := ihL fuel (n / 10) hdiv hL1
            omega
  unfold natRender
  by_cases h0 : n = 0
  · subst h0; simpa using hL
  · rw [if_neg h0]
    exact key L (n + 1) n h hL

lemma digitsVal_replicate_zero (z : ℕ) (ds : List Char) :
    digitsVal (List.replicate z '0' ++ ds) = digitsVal ds := by
  induction z with
  | zero => simp
  | succ z ih =>
    have hrw : List.replicate (z + 1) '0' ++ ds = '0' :: (List.replicate z '0' ++ ds) := by
      simp [List.replicate_succ]
    rw [hrw]
    have step : digitsVal ('0' :: (List.replicate z '0' ++ ds)) =
        digitsVal (List.replicate z '0' ++ ds) := by
      simp [digitsVal, digitVal]
    rw [step, ih]

lemma padZeros_spec {K : ℕ} {ds : List Char} (hlen : ds.length ≤ K)
    (hds : ∀ c ∈ ds, ∃ d, d < 10 ∧ c = digitChar d) :
    digitsVal (padZeros K ds) = digitsVal ds ∧
    (padZeros K ds).length = K ∧
    (∀ c ∈ padZeros K ds, ∃ d, d < 10 ∧ c = digitChar d) := by
  unfold padZeros
  refine ⟨digitsVal_replicate_zero _ _, ?_, ?_⟩
  · simp only [List.length_append, List.length_replicate]
    omega
  · intro c hc
    rcases List.mem_append.mp hc with h | h
    · rcases List.eq_of_mem_replicate h with rfl
      exact ⟨0, by norm_num, rfl⟩
    · exact hds c h

lemma splitOn_no_dot {ds : List Char} (h : ∀ c ∈ ds, c ≠ '.') :
    ds.splitOn '.' = [ds] := by
  unfold List.splitOn
  apply List.splitOnP_eq_single
  intro x hx
  simpa using h x hx

lemma splitOn_dot_pair {ip fp : List Char} (hip : ∀ c ∈ ip, c ≠ '.')
    (hfp : ∀ c ∈ fp, c ≠ '.') :
    (ip ++ '.' :: fp).splitOn '.' = [ip, fp] := by
  unfold List.splitOn
  rw [List.splitOnP_first _ _ (by intro x hx; simpa using hip x hx) '.' (by simp) fp]
  congr 1
  apply List.splitOnP_eq_single
  intro x hx
  simpa using hfp x hx

lemma findExp_dvd {d k : ℕ} (h : findExp d = some k) : d ∣ 10 ^ k := by
  unfold findExp at h
  have hp := List.find?_some h
  simp only [beq_iff_eq] at hp
  exact Nat.dvd_of_mod_eq_zero hp

lemma numSign_minus (t : List Char) : numSign ('-' :: t) = (-1, t) := by
  simp [numSign]

lemma numSign_digit {c : Char} (t : List Char) (h1 : c ≠ '-') (h2 : c ≠ '+') :
    numSign (c :: t) = (1, c :: t) := by
  simp [numSign, h1, h2]

lemma renderNum_spec {q : ℚ} {cs : List Char} (h : renderNum q = some cs) :
    numShape cs = true ∧ numValue cs = q ∧ cs ≠ [] ∧
    (∀ c ∈ cs, c ≠ '\n' ∧ c.isWhitespace = false ∧ numChar c = true ∧
      c ≠ '"' ∧ c ≠ '\x7b' ∧ c ≠ '[' ∧ c ≠ ']' ∧ c ≠ '\x7d' ∧
      plainChar c = true) := by
  have hden0 : q.den ≠ 0 := q.den_nz
  have hdash : ∀ P : Prop, P → (('-' : Char) ≠ '\n' ∧ ('-' : Char).isWhitespace = false ∧
      numChar '-' = true ∧ ('-' : Char) ≠ '"' ∧ ('-' : Char) ≠ '\x7b' ∧
      ('-' : Char) ≠ '[' ∧ ('-' : Char) ≠ ']' ∧ ('-' : Char) ≠ '\x7d' ∧
      plainChar '-' = true) := fun _ _ => by decide
  unfold renderNum at h
  rcases hfind : findExp q.den with _ | k
  · rw [hfind] at h; simp at h
  rw [hfind] at h
  have hdvd := findExp_dvd hfind
  match k with
  | 0 =>
    simp only [Option.some.injEq] at h
    subst h
    have hden1 : q.den = 1 := Nat.dvd_one.mp (by simpa using hdvd)
    have hq : (q.num : ℚ) = q := by
      conv_rhs => rw [← Rat.num_div_den q]
      rw [hden1]
      simp
    obtain ⟨hv, hd, hne⟩ := natRender_spec q.num.natAbs
    have hdigits : ∀ c ∈ natRender q.num.natAbs, c ≠ '.' := by
      intro c hc
      obtain ⟨d, hd10, rfl⟩ := hd c hc
      exact (digitChar_props hd10).2.2.1
    have hisdig : ∀ c ∈ natRender q.num.natAbs, c.isDigit = true := by
      intro c hc
      obtain ⟨d, hd10, rfl⟩ := hd c hc
      exact (digitChar_props hd10).1
    have habs : ((q.num.natAbs : ℕ) : ℚ) = |(q.num : ℚ)| := by
      push_cast [Int.cast_natAbs]
      rfl
    by_cases hneg : q.num < 0
    · have hcs : intRender q.num = '-' :: natRender q.num.natAbs := by
        simp [intRender, hneg]
      rw [hcs]
      have hshape : numShape ('-' :: natRender q.num.natAbs) = true := by
        unfold numShape
        rw [numSign_minus]
        simp only
        rw [splitOn_no_dot hdigits]
        simp [List.isEmpty_iff, hne, List.all_eq_true]
        exact hisdig
      have hval : numValue ('-' :: natRender q.num.natAbs) = q := by
        unfold numValue
        rw [numSign_minus]
        simp only
        rw [splitOn_no_dot hdigits]
        simp only [hv]
        rw [habs, abs_of_neg (by exact_mod_cast hneg : (q.num : ℚ) < 0)]
        linear_combination hq
      refine ⟨hshape, hval, by simp, ?_⟩
      intro c hc
      rcases List.mem_cons.mp hc with rfl | hc2
      · exact hdash True trivial
      · obtain ⟨d, hd10, rfl⟩ := hd c hc2
        obtain ⟨_, p2, _, p4, p5, p6, p7, p8, p9, p10, p11, p12, _, _⟩ := digitChar_props hd10
        exact ⟨p4, p7, p2, p6, p8, p9, p10, p11, p12⟩
    · have hcs : intRender q.num = natRender q.num.natAbs := by
        simp [intRender, hneg]
      rw [hcs]
      have hhead : ∀ c t, natRender q.num.natAbs = c :: t → numSign (c :: t) = (1, c :: t) := by
        intro c t hct
        have hcmem : c ∈ natRender q.num.natAbs := by rw [hct]; simp
        obtain ⟨d, hd10, rfl⟩ := hd c hcmem
        exact numSign_digit t (digitChar_props hd10).2.2.2.2.2.2.2.2.2.2.2.2.1
          (digitChar_props hd10).2.2.2.2.2.2.2.2.2.2.2.2.2
      obtain ⟨c, t, hct⟩ : ∃ c t, natRender q.num.natAbs = c :: t := by
        cases hcase : natRender q.num.natAbs with
        | nil => exact absurd hcase hne
        | cons c t => exact ⟨c, t, rfl⟩
      have hsign : numSign (natRender q.num.natAbs) = (1, natRender q.num.natAbs) := by
        rw [hct]; exact hhead c t hct
      have hshape : numShape (natRender q.num.natAbs) = true := by
        unfold numShape
        rw [hsign]
        simp only
        rw [splitOn_no_dot hdigits]
        simp [List.isEmpty_iff, hne, List.all_eq_true]
        exact hisdig
      have hval : numValue (natRender q.num.natAbs) = q := by
        unfold numValue
        rw [hsign]
        simp only
        rw [splitOn_no_dot hdigits]
        simp only [hv]
        rw [habs, abs_of_nonneg (by exact_mod_cast not_lt.mp hneg : (0:ℚ) ≤ (q.num : ℚ))]
        linear_combination hq
      refine ⟨hshape, hval, hne, ?_⟩
      intro c2 hc2
      obtain ⟨d, hd10, rfl⟩ := hd c2 hc2
      obtain ⟨_, p2, _, p4, p5, p6, p7, p8, p9, p10, p11, p12, _, _⟩ := digitChar_props hd10
      exact ⟨p4, p7, p2, p6, p8, p9, p10, p11, p12⟩
  | k + 1 =>
    simp only [Option.some.injEq] at h
    set K := k + 1 with hK
    set N := 10 ^ K with hN
    set m := q.num.natAbs * N / q.den with hm
    have hNpos : 0 < N := by positivity
    have hmodlt : m % N < N := Nat.mod_lt _ hNpos
    obtain ⟨hvI, hdI, hneI⟩ := natRender_spec (m / N)
    obtain ⟨hvF, hdF, _⟩ := natRender_spec (m % N)
    have hlenF : (natRender (m % N)).length ≤ K :=
      natRender_length_le (by rw [← hN]; exact hmodlt) (by omega)
    obtain ⟨hpadV, hpadL, hpadD⟩ := padZeros_spec hlenF hdF
    have hdigitsI : ∀ c ∈ natRender (m / N), c ≠ '.' := by
      intro c hc
      obtain ⟨d, hd10, rfl⟩ := hdI c hc
      exact (digitChar_props hd10).2.2.1
    have hdigitsF : ∀ c ∈ padZeros K (natRender (m % N)), c ≠ '.' := by
      intro c hc
      obtain ⟨d, hd10, rfl⟩ := hpadD c hc
      exact (digitChar_props hd10).2.2.1
    have hisdigI : ∀ c ∈ natRender (m / N), c.isDigit = true := by
      intro c hc
      obtain ⟨d, hd10, rfl⟩ := hdI c hc
      exact (digitChar_props hd10).1
    have hisdigF : ∀ c ∈ padZeros K (natRender (m % N)), c.isDigit = true := by
      intro c hc
      obtain ⟨d, hd10, rfl⟩ := hpadD c hc
      exact (digitChar_props hd10).1
    have hpadne : padZeros K (natRender (m % N)) ≠ [] := by
      intro hcon
      rw [hcon] at hpadL
      simp at hpadL
      omega
    have hsplit : (natRender (m / N) ++ '.' :: padZeros K (natRender (m % N))).splitOn '.' =
        [natRender (m / N), padZeros K (natRender (m % N))] :=
      splitOn_dot_pair hdigitsI hdigitsF
    -- the rational value carried by the digit groups
    have hmcast : (m : ℚ) = (q.num.natAbs : ℚ) * (N : ℚ) / (q.den : ℚ) := by
      rw [hm]
      rw [Nat.cast_div (Dvd.dvd.mul_left hdvd _) (by exact_mod_cast hden0)]
      push_cast
      ring
    have hsum : ((m / N : ℕ) : ℚ) + ((m % N : ℕ) : ℚ) / (N : ℚ) = (m : ℚ) / (N : ℚ) := by
      have hNne : (N : ℚ) ≠ 0 := by positivity
      have hnat : m / N * N + m % N = m := Nat.div_add_mod' m N
      have hq2 : ((m / N : ℕ) : ℚ) * (N : ℚ) + ((m % N : ℕ) : ℚ) = (m : ℚ) := by
        exact_mod_cast hnat
      field_simp
      linarith
    have habs : ((q.num.natAbs : ℕ) : ℚ) = |(q.num : ℚ)| := by
      push_cast [Int.cast_natAbs]
      rfl
    have hqval : (q.num : ℚ) / (q.den : ℚ) = q := Rat.num_div_den q
    have hcore : ((m / N : ℕ) : ℚ) + ((m % N : ℕ) : ℚ) / (N : ℚ) =
        |(q.num : ℚ)| / (q.den : ℚ) := by
      rw [hsum, hmcast]
      have hNne : (N : ℚ) ≠ 0 := by positivity
      field_simp
      rw [habs]
      ring
    by_cases hneg : q.num < 0
    · have hcs : cs = '-' :: (natRender (m / N) ++ '.' ::
          padZeros K (natRender (m % N))) := by
        rw [← h]; simp [hneg]
      subst hcs
      have hshape : numShape ('-' :: (natRender (m / N) ++ '.' ::
          padZeros K (natRender (m % N)))) = true := by
        unfold numShape
        rw [numSign_minus]
        simp only
        rw [hsplit]
        simp [List.isEmpty_iff, hneI, hpadne, List.all_eq_true]
        exact ⟨hisdigI, hisdigF⟩
      have hval : numValue ('-' :: (natRender (m / N) ++ '.' ::
          padZeros K (natRender (m % N)))) = q := by
        unfold numValue
        rw [numSign_minus]
        simp only
        rw [hsplit]
        simp only [hvI, hpadV, hvF, hpadL]
        have hNcast : ((N : ℕ) : ℚ) = (10 : ℚ) ^ K := by rw [hN]; push_cast; ring
        rw [← hNcast, hcore, abs_of_neg (by exact_mod_cast hneg : (q.num : ℚ) < 0)]
        linear_combination hqval
      refine ⟨hshape, hval, by simp, ?_⟩
      intro c hc
      rcases List.mem_cons.mp hc with rfl | hc2
      · exact hdash True trivial
      rcases List.mem_append.mp hc2 with hc3 | hc3
      · obtain ⟨d, hd10, rfl⟩ := hdI c hc3
        obtain ⟨_, p2, _, p4, p5, p6, p7, p8, p9, p10, p11, p12, _, _⟩ := digitChar_props hd10
        exact ⟨p4, p7, p2, p6, p8, p9, p10, p11, p12⟩
      rcases List.mem_cons.mp hc3 with rfl | hc4
      · decide
      · obtain ⟨d, hd10, rfl⟩ := hpadD c hc4
        obtain ⟨_, p2, _, p4, p5, p6, p7, p8, p9, p10, p11, p12, _, _⟩ := digitChar_props hd10
        exact ⟨p4, p7, p2, p6, p8, p9, p10, p11, p12⟩
    · have hcs : cs = natRender (m / N) ++ '.' :: padZeros K (natRender (m % N)) := by
        rw [← h]; simp [hneg]
      subst hcs
      obtain ⟨c0, t0, hct⟩ : ∃ c0 t0, natRender (m / N) = c0 :: t0 := by
        cases hcase : natRender (m / N) with
        | nil => exact absurd hcase hneI
        | cons c0 t0 => exact ⟨c0, t0, rfl⟩
      have hc0mem : c0 ∈ natRender (m / N) := by rw [hct]; simp
      obtain ⟨d0, hd010, hd0eq⟩ := hdI c0 hc0mem
      have hsign : numSign (natRender (m / N) ++ '.' ::
          padZeros K (natRender (m % N))) =
          (1, natRender (m / N) ++ '.' :: padZeros K (natRender (m % N))) := by
        rw [hct]
        simp only [List.cons_append]
        rw [numSign_digit _ (by rw [hd0eq]; exact (digitChar_props hd010).2.2.2.2.2.2.2.2.2.2.2.2.1)
          (by rw [hd0eq]; exact (digitChar_props hd010).2.2.2.2.2.2.2.2.2.2.2.2.2)]
      have hshape : numShape (natRender (m / N) ++ '.' ::
          padZeros K (natRender (m % N))) = true := by
        unfold numShape
        rw [hsign]
        simp only
        rw [hsplit]
        simp [List.isEmpty_iff, hneI, hpadne, List.all_eq_true]
        exact ⟨hisdigI, hisdigF⟩
      have hval : numValue (natRender (m / N) ++ '.' ::
          padZeros K (natRender (m % N))) = q := by
        unfold numValue
        rw [hsign]
        simp only
        rw [hsplit]
        simp only [hvI, hpadV, hvF, hpadL]
        have hNcast : ((N : ℕ) : ℚ) = (10 : ℚ) ^ K := by rw [hN]; push_cast; ring
        rw [← hNcast, hcore,
          abs_of_nonneg (by exact_mod_cast not_lt.mp hneg : (0:ℚ) ≤ (q.num : ℚ))]
        linear_combination hqval
      refine ⟨hshape, hval, by simp, ?_⟩
      intro c hc
      rcases List.mem_append.mp hc with hc3 | hc3
      · obtain ⟨d, hd10, rfl⟩ := hdI c hc3
        obtain ⟨_, p2, _, p4, p5, p6, p7, p8, p9, p10, p11, p12, _, _⟩ := digitChar_props hd10
        exact ⟨p4, p7, p2, p6, p8, p9, p10, p11, p12⟩
      rcases List.mem_cons.mp hc3 with rfl | hc4
      · decide
      · obtain ⟨d, hd10, rfl⟩ := hpadD c hc4
        obtain ⟨_, p2, _, p4, p5, p6, p7, p8, p9, p10, p11, p12, _, _⟩ := digitChar_props hd10
        exact ⟨p4, p7, p2, p6, p8, p9, p10, p11, p12⟩

lemma plainChar_props {c : Char} (h : plainChar c = true) :
    c ≠ '"' ∧ c ≠ '\n' ∧ c ≠ '\r' := by
  unfold plainChar at h
  simp only [Bool.and_eq_true, bne_iff_ne, ne_eq, decide_eq_true_eq] at h
  obtain ⟨⟨h1, _⟩, h3⟩ := h
  refine ⟨h1, ?_, ?_⟩ <;> intro hc <;> subst hc <;> exact absurd h3 (by decide)

lemma expect_append : ∀ (p r : List Char), expect p (p ++ r) = some r := by
  intro p
  induction p with
  | nil => intro r; rfl
  | cons c cs ih => intro r; simp [expect, ih]

lemma scanString_exact {content : List Char} (h : ∀ c ∈ content, c ≠ '"') :
    ∀ rest, scanString (content ++ '"' :: rest) = some (content, rest) := by
  induction content with
  | nil => intro rest; simp [scanString]
  | cons c cs ih =>
    intro rest
    have hc : ¬ c = '"' := h c (by simp)
    show scanString (c :: (cs ++ '"' :: rest)) = some (c :: cs, rest)
    rw [scanString, if_neg hc, ih (fun x hx => h x (by simp [hx])) rest]

lemma takeWhile_append_exact {p : Char → Bool} :
    ∀ (l : List Char) (c : Char) (r : List Char), (∀ x ∈ l, p x = true) → p c = false →
      (l ++ c :: r).takeWhile p = l := by
  intro l
  induction l with
  | nil => intro c r _ hc; simp [List.takeWhile_cons, hc]
  | cons a t ih =>
    intro c r hl hc
    have ha : p a = true := hl a (by simp)
    rw [List.cons_append, List.takeWhile_cons, if_pos ha,
      ih c r (fun x hx => hl x (by simp [hx])) hc]

lemma dropWhile_append_exact {p : Char → Bool} :
    ∀ (l : List Char) (c : Char) (r : List Char), (∀ x ∈ l, p x = true) → p c = false →
      (l ++ c :: r).dropWhile p = c :: r := by
  intro l
  induction l with
  | nil => intro c r _ hc; simp [List.dropWhile_cons, hc]
  | cons a t ih =>
    intro c r hl hc
    have ha : p a = true := hl a (by simp)
    rw [List.cons_append, List.dropWhile_cons, if_pos ha,
      ih c r (fun x hx => hl x (by simp [hx])) hc]

lemma span_exact {p : Char → Bool} (l : List Char) (c : Char) (r : List Char)
    (hl : ∀ x ∈ l, p x = true) (hc : p c = false) :
    List.span p (l ++ c :: r) = (l, c :: r) := by
  rw [List.span_eq_take_drop, takeWhile_append_exact l c r hl hc,
    dropWhile_append_exact l c r hl hc]

lemma dropWhile_head_eq_self {p : Char → Bool} {cs : List Char}
    (h : ∀ c, cs.head? = some c → p c = false) : cs.dropWhile p = cs := by
  cases cs with
  | nil => rfl
  | cons c t => simp [List.dropWhile_cons, h c rfl]

lemma trimChars_eq_self {cs : List Char}
    (h1 : ∀ c, cs.head? = some c → c.isWhitespace = false)
    (h2 : ∀ c, cs.getLast? = some c → c.isWhitespace = false) :
    trimChars cs = cs := by
  unfold trimChars
  rw [dropWhile_head_eq_self h1,
    dropWhile_head_eq_self (by rw [List.head?_reverse]; exact h2), List.reverse_reverse]

lemma trimChars_eq_self_of_all {cs : List Char}
    (h : ∀ c ∈ cs, c.isWhitespace = false) : trimChars cs = cs :=
  trimChars_eq_self
    (fun c hc => h c (by cases cs with
      | nil => simp at hc
      | cons a t => rw [List.head?_cons, Option.some.injEq] at hc; simp [hc]))
    (fun c hc => h c (by
      have hmem : c ∈ cs.getLast? := by rw [Option.mem_def]; exact hc
      obtain ⟨hne, hcc⟩ := List.mem_getLast?_eq_getLast hmem
      rw [hcc]
      exact List.getLast_mem hne))

lemma splitFirstComma_append {k : List Char} (h : ',' ∉ k) (v : List Char) :
    splitFirstComma (k ++ ',' :: v) = some (k, v) := by
  induction k with
  | nil => simp [splitFirstComma]
  | cons c t ih =>
    have hc : ¬ c = ',' := fun hcc => h (by simp [hcc])
    show splitFirstComma (c :: (t ++ ',' :: v)) = some (c :: t, v)
    rw [splitFirstComma, if_neg hc, ih (fun hm => h (by simp [hm]))]

lemma importRow_exact {kstr : String} {cell : List Char}
    (hk1 : ',' ∉ kstr.data) (hk2 : ∀ c ∈ kstr.data, c.isWhitespace = false)
    (hc1 : trimChars cell = cell) :
    importRow (kstr.data ++ ',' :: cell) = some (kstr, parseCell cell) := by
  unfold importRow
  rw [splitFirstComma_append hk1]
  simp only
  rw [trimChars_eq_self_of_all hk2, hc1]


lemma span_append_head {p : Char → Bool} :
    ∀ (l r : List Char), (∀ x ∈ l, p x = true) →
      (∀ c, r.head? = some c → p c = false) →
      List.span p (l ++ r) = (l, r) := by
  intro l
  induction l with
  | nil =>
    intro r _ hr
    rw [List.nil_append, List.span_eq_take_drop]
    cases r with
    | nil => rfl
    | cons c t =>
      have hc := hr c rfl
      simp [List.takeWhile_cons, List.dropWhile_cons, hc]
  | cons a t ih =>
    intro r hl hr
    have ha : p a = true := hl a (by simp)
    have ht := ih r (fun x hx => hl x (by simp [hx])) hr
    rw [List.span_eq_take_drop] at ht
    have h1 : (t ++ r).takeWhile p = t := congrArg Prod.fst ht
    have h2 : (t ++ r).dropWhile p = r := congrArg Prod.snd ht
    rw [List.cons_append, List.span_eq_take_drop, List.takeWhile_cons, if_pos ha,
      List.dropWhile_cons, if_pos ha, h1, h2]

lemma renderItem_form {i : CustomCost} {out : List Char} (h : renderItem i = some out) :
    ∃ idCs rateCs, renderNum i.id = some idCs ∧ renderNum i.rate = some rateCs ∧
      (∀ c ∈ i.name.data, plainChar c = true) ∧ (∀ c ∈ i.kind.data, plainChar c = true) ∧
      out = jsonA ++ idCs ++ jsonB ++ i.name.data ++ '"' :: jsonC ++ i.kind.data ++
        '"' :: jsonD ++ rateCs ++ ['\x7d'] := by
  unfold renderItem at h
  rcases hid : renderNum i.id with _ | idCs <;> rw [hid] at h
  · simp at h
  rcases hrate : renderNum i.rate with _ | rateCs <;> rw [hrate] at h
  · simp at h
  by_cases hpl : (i.name.data.all plainChar && i.kind.data.all plainChar) = true
  · simp only [if_pos hpl, Option.some.injEq] at h
    simp only [Bool.and_eq_true, List.all_eq_true] at hpl
    exact ⟨idCs, rateCs, rfl, rfl, hpl.1, hpl.2, h.symm⟩
  · simp only [if_neg hpl] at h
    simp at h

lemma renderItem_cons {i : CustomCost} {out : List Char} (h : renderItem i = some out) :
    ∃ t, out = '\x7b' :: t := by
  obtain ⟨idCs, rateCs, _, _, _, _, hform⟩ := renderItem_form h
  subst hform
  exact ⟨['"', 'i', 'd', '"', ':'] ++ idCs ++ jsonB ++ i.name.data ++ '"' :: jsonC ++
    i.kind.data ++ '"' :: jsonD ++ rateCs ++ ['\x7d'], by simp [jsonA]⟩

lemma renderItem_chars {i : CustomCost} {out : List Char} (h : renderItem i = some out) :
    ∀ c ∈ out, c ≠ '\n' := by
  obtain ⟨idCs, rateCs, hid, hrate, hplN, hplK, hform⟩ := renderItem_form h
  obtain ⟨_, _, _, hchars1⟩ := renderNum_spec hid
  obtain ⟨_, _, _, hchars2⟩ := renderNum_spec hrate
  subst hform
  intro c hc
  rcases List.mem_append.mp hc with h8 | h9
  · rcases List.mem_append.mp h8 with h7 | hR
    · rcases List.mem_append.mp h7 with h6 | hQ2
      · rcases List.mem_append.mp h6 with h5 | hK
        · rcases List.mem_append.mp h5 with h4 | hQ1
          · rcases List.mem_append.mp h4 with h3 | hN
            · rcases List.mem_append.mp h3 with h2 | hB
              · rcases List.mem_append.mp h2 with hA | hI
                · unfold jsonA at hA; fin_cases hA <;> decide
                · exact (hchars1 c hI).1
              · unfold jsonB at hB; fin_cases hB <;> decide
            · exact (plainChar_props (hplN c hN)).2.1
          · rcases List.mem_cons.mp hQ1 with rfl | hC
            · decide
            · unfold jsonC at hC; fin_cases hC <;> decide
        · exact (plainChar_props (hplK c hK)).2.1
      · rcases List.mem_cons.mp hQ2 with rfl | hD
        · decide
        · unfold jsonD at hD; fin_cases hD <;> decide
    · exact (hchars2 c hR).1
  · have h10 := List.mem_singleton.mp h9
    subst h10
    decide

lemma parseItem_renderItem {i : CustomCost} {out : List Char}
    (h : renderItem i = some out) (rest : List Char) :
    parseItem (out ++ rest) = some (i, rest) := by
  obtain ⟨idCs, rateCs, hid, hrate, hplN, hplK, hform⟩ := renderItem_form h
  obtain ⟨hshape1, hval1, hne1, hchars1⟩ := renderNum_spec hid
  obtain ⟨hshape2, hval2, hne2, hchars2⟩ := renderNum_spec hrate
  subst hform
  have hEq : (jsonA ++ idCs ++ jsonB ++ i.name.data ++ '"' :: jsonC ++ i.kind.data ++
      '"' :: jsonD ++ rateCs ++ ['\x7d']) ++ rest =
      jsonA ++ (idCs ++ (jsonB ++ (i.name.data ++ '"' :: (jsonC ++ (i.kind.data ++ '"' :: (jsonD ++ (rateCs ++ '\x7d' :: rest))))))) := by
    simp [List.append_assoc]
  rw [hEq]
  have hspan1 : List.span numChar (idCs ++ (jsonB ++ (i.name.data ++ '"' :: (jsonC ++ (i.kind.data ++ '"' :: (jsonD ++ (rateCs ++ '\x7d' :: rest))))))) = (idCs, (jsonB ++ (i.name.data ++ '"' :: (jsonC ++ (i.kind.data ++ '"' :: (jsonD ++ (rateCs ++ '\x7d' :: rest))))))) :=
    span_append_head _ _ (fun x hx => (hchars1 x hx).2.2.1)
      (by
        intro c hc
        simp only [jsonB, List.cons_append, List.head?_cons, Option.some.injEq] at hc
        subst hc
        decide)
  have hscan1 : scanString (i.name.data ++ '"' :: (jsonC ++ (i.kind.data ++ '"' :: (jsonD ++ (rateCs ++ '\x7d' :: rest))))) = some (i.name.data, (jsonC ++ (i.kind.data ++ '"' :: (jsonD ++ (rateCs ++ '\x7d' :: rest))))) :=
    scanString_exact (fun c hc => (plainChar_props (hplN c hc)).1) _
  have hscan2 : scanString (i.kind.data ++ '"' :: (jsonD ++ (rateCs ++ '\x7d' :: rest))) = some (i.kind.data, (jsonD ++ (rateCs ++ '\x7d' :: rest))) :=
    scanString_exact (fun c hc => (plainChar_props (hplK c hc)).1) _
  have hspan2 : List.span numChar (rateCs ++ '\x7d' :: rest) = (rateCs, '\x7d' :: rest) :=
    span_exact _ _ _ (fun x hx => (hchars2 x hx).2.2.1) (by decide)
  unfold parseItem
  simp only [expect_append, hspan1, hscan1, hscan2, hspan2, hshape1, hshape2,
    eq_self_iff_true, if_true]
  rw [hval1, hval2]

lemma renderItems_spec :
    ∀ (l : List CustomCost), l ≠ [] → ∀ (body : List Char), renderItems l = some body →
      (∃ t, body = '\x7b' :: t) ∧ l.length ≤ body.length ∧
      (∀ c ∈ body, c ≠ '\n') ∧
      (∀ fuel tail, l.length ≤ fuel →
        parseItems fuel (body ++ ']' :: tail) = some (l, tail)) := by
  intro l
  induction l with
  | nil => intro hne; exact absurd rfl hne
  | cons i restl ih =>
    intro _ body hbody
    cases restl with
    | nil =>
      have hri : renderItem i = some body := hbody
      obtain ⟨t, ht⟩ := renderItem_cons hri
      refine ⟨⟨t, ht⟩, ?_, renderItem_chars hri, ?_⟩
      · rw [ht]; simp
      · intro fuel tail hfuel
        cases fuel with
        | zero => simp at hfuel
        | succ f => simp only [parseItems, parseItem_renderItem hri]
    | cons j restl2 =>
      unfold renderItems at hbody
      rcases ha : renderItem i with _ | a <;> rw [ha] at hbody
      · simp at hbody
      rcases hb : renderItems (j :: restl2) with _ | b <;> rw [hb] at hbody
      · simp at hbody
      have hb2 : a ++ ',' :: b = body := Option.some.inj hbody
      subst hb2
      obtain ⟨hheadb, hlenb, hnlb, hparseb⟩ := ih (by simp) b hb
      obtain ⟨ta, hta⟩ := renderItem_cons ha
      refine ⟨⟨ta ++ ',' :: b, by rw [hta, List.cons_append]⟩, ?_, ?_, ?_⟩
      · have h1 : 1 ≤ a.length := by rw [hta]; simp
        simp only [List.length_cons, List.length_append] at hlenb ⊢
        omega
      · intro c hc
        rcases List.mem_append.mp hc with hc | hc
        · exact renderItem_chars ha c hc
        · rcases List.mem_cons.mp hc with rfl | hc
          · decide
          · exact hnlb c hc
      · intro fuel tail hfuel
        cases fuel with
        | zero => simp at hfuel
        | succ f =>
          have hEq2 : (a ++ ',' :: b) ++ ']' :: tail = a ++ ',' :: (b ++ ']' :: tail) := by
            simp
          rw [hEq2]
          have hrec := hparseb f tail (by simp only [List.length_cons] at hfuel ⊢; omega)
          simp only [parseItems, parseItem_renderItem ha, hrec]

lemma renderCustomCosts_spec {l : List CustomCost} {out : List Char}
    (h : renderCustomCosts l = some out) :
    parseCustomCosts out = some l ∧ leadsBracket out = true ∧
    trimChars out = out ∧ (∀ c ∈ out, c ≠ '\n') := by
  cases l with
  | nil =>
    have hout : out = ['[', ']'] := (Option.some.inj h).symm
    subst hout
    exact ⟨by decide, by decide, by decide, by decide⟩
  | cons i restl =>
    unfold renderCustomCosts at h
    rcases hb : renderItems (i :: restl) with _ | body <;> rw [hb] at h
    · simp at h
    have hout : '[' :: body ++ [']'] = out := Option.some.inj h
    subst hout
    obtain ⟨hhead, hlen, hnl, hparse⟩ := renderItems_spec (i :: restl) (by simp) body hb
    obtain ⟨t, hbt⟩ := hhead
    have hne2 : ¬ (body ++ [']'] = [']']) := by
      intro hcon
      rw [hbt] at hcon
      have h2 := congrArg List.head? hcon
      simp only [List.cons_append, List.head?_cons, Option.some.injEq] at h2
      exact absurd h2 (by decide)
    refine ⟨?_, ?_, ?_, ?_⟩
    · show parseCustomCosts ('[' :: (body ++ [']'])) = some (i :: restl)
      have hp := hparse ((body ++ [']']).length + 1) []
        (by simp only [List.length_append, List.length_cons] at hlen ⊢; omega)
      simp only [parseCustomCosts, if_neg hne2, hp]
    · show leadsBracket ('[' :: (body ++ [']'])) = true
      unfold leadsBracket
      rw [List.dropWhile_cons, if_neg (by decide)]
      rfl
    · apply trimChars_eq_self
      · intro c hc
        rw [show (('[' :: body ++ [']']).head?) = some '[' from rfl,
          Option.some.injEq] at hc
        subst hc
        decide
      · intro c hc
        rw [List.getLast?_concat, Option.some.injEq] at hc
        subst hc
        decide
    · intro c hc
      rcases List.mem_append.mp hc with hc | hc
      · rcases List.mem_cons.mp hc with rfl | hc
        · decide
        · exact hnl c hc
      · have h3 := List.mem_singleton.mp hc
        subst h3
        decide

lemma jsCell_spec {v : JsValue} {cell : List Char} (hgv : goodValue v)
    (h : jsCell v = some cell) :
    trimChars cell = cell ∧ (∀ c ∈ cell, c ≠ '\n') ∧
    parseCell cell = reimportedValue v := by
  cases v with
  | num q =>
    have hr : renderNum q = some cell := h
    obtain ⟨hshape, hval, hne, hchars⟩ := renderNum_spec hr
    refine ⟨trimChars_eq_self_of_all (fun c hc => (hchars c hc).2.1),
      fun c hc => (hchars c hc).1, ?_⟩
    have hlb : leadsBracket cell = false := by
      cases cell with
      | nil => exact absurd rfl hne
      | cons c t =>
        have hw : c.isWhitespace = false := (hchars c (by simp)).2.1
        have h5 : c ≠ '\x7b' := (hchars c (by simp)).2.2.2.2.1
        have h6 : c ≠ '[' := (hchars c (by simp)).2.2.2.2.2.1
        unfold leadsBracket
        rw [List.dropWhile_cons, if_neg (by simp [hw])]
        show (c == '\x7b' || c == '[') = false
        simp [h5, h6]
    unfold parseCell
    rw [if_neg (by simp [hlb]), if_pos hshape, hval]
    rfl
  | str s =>
    have hgv2 : leadsBracket s.data = false ∧ numShape s.data = false ∧
        ('\n' ∉ s.data) ∧ (∀ c, s.data.head? = some c → c.isWhitespace = false) ∧
        (∀ c, s.data.getLast? = some c → c.isWhitespace = false) := hgv
    obtain ⟨hlb, hns, hnl, hh, hl⟩ := hgv2
    have hcell : s.data = cell := Option.some.inj h
    subst hcell
    refine ⟨trimChars_eq_self hh hl, fun c hc hceq => hnl (hceq ▸ hc), ?_⟩
    unfold parseCell
    rw [if_neg (by simp [hlb]), if_neg (by simp [hns])]
    rfl
  | bool b =>
    cases b with
    | false =>
      have h2 : ("false").data = cell := Option.some.inj h
      subst h2
      exact ⟨by decide, by decide, by decide⟩
    | true =>
      have h2 : ("true").data = cell := Option.some.inj h
      subst h2
      exact ⟨by decide, by decide, by decide⟩
  | list l =>
    have hr : renderCustomCosts l = some cell := h
    obtain ⟨hp, hlb, htr, hnl⟩ := renderCustomCosts_spec hr
    refine ⟨htr, hnl, ?_⟩
    unfold parseCell
    rw [if_pos hlb, hp]
    rfl

lemma exportRows_spec :
    ∀ (fields : List (String × JsValue)) (rows : List (List Char)),
      (∀ kv ∈ fields, goodKey kv.1) → (∀ kv ∈ fields, goodValue kv.2) →
      exportRows fields = some rows →
      (∀ r ∈ rows, (∀ c ∈ r, c ≠ '\n') ∧ r ≠ []) ∧
      rows.filterMap importRow =
        fields.map (fun kv => (kv.1, reimportedValue kv.2)) := by
  intro fields
  induction fields with
  | nil =>
    intro rows _ _ h
    have h2 : rows = [] := (Option.some.inj h).symm
    subst h2
    exact ⟨by simp, by simp⟩
  | cons kv restf ih =>
    intro rows hk hv h
    obtain ⟨k, v⟩ := kv
    unfold exportRows at h
    rcases hc : jsCell v with _ | cell <;> rw [hc] at h
    · simp at h
    rcases hrs : exportRows restf with _ | rs <;> rw [hrs] at h
    · simp at h
    have h2 : (k.data ++ ',' :: cell) :: rs = rows := Option.some.inj h
    subst h2
    have hgk : goodKey k := hk (k, v) (by simp)
    have hgv : goodValue v := hv (k, v) (by simp)
    obtain ⟨htr, hnlc, hpc⟩ := jsCell_spec hgv hc
    obtain ⟨hrs1, hrs2⟩ := ih rs (fun x hx => hk x (by simp [hx]))
      (fun x hx => hv x (by simp [hx])) hrs
    obtain ⟨hkc, hkw⟩ := hgk
    constructor
    · intro r hr
      rcases List.mem_cons.mp hr with rfl | hr
      · constructor
        · intro c hcm
          rcases List.mem_append.mp hcm with hcm | hcm
          · intro hceq
            subst hceq
            exact absurd (hkw '\n' hcm) (by decide)
          · rcases List.mem_cons.mp hcm with rfl | hcm
            · decide
            · exact hnlc c hcm
        · simp
      · exact hrs1 r hr
    · simp only [List.filterMap_cons, List.map_cons, importRow_exact hkc hkw htr]
      rw [hpc, hrs2]

/-- **C9.**  The CSV round-trip law, amended to what the code does.  For a
field list whose keys contain no comma and no whitespace and whose values
are exportable — numbers with a finite decimal rendering, booleans, lists
of custom-cost records, and strings that the import heuristics leave
untouched — re-importing the exported CSV reproduces every number, string
and list field exactly.  Boolean fields are the exception the original
claim misses: they come back as the strings `true` / `false`, since
`handleImportCSV` (src/app.py lines 320-348) has no boolean branch. -/
theorem csv_roundtrip_amended (fields : List (String × JsValue)) (text : List Char)
    (hk : ∀ kv ∈ fields, goodKey kv.1)
    (hv : ∀ kv ∈ fields, goodValue kv.2)
    (hexp : exportCSVChars fields = some text) :
    importCSVChars text =
      fields.map (fun kv => (kv.1, reimportedValue kv.2)) := by
  unfold exportCSVChars at hexp
  rcases hrows : exportRows fields with _ | rows <;> rw [hrows] at hexp
  · simp at hexp
  have htext : List.intercalate ['\n'] (headerChars :: rows) = text :=
    Option.some.inj hexp
  subst htext
  obtain ⟨hrowsP, hfm⟩ := exportRows_spec fields rows hk hv hrows
  unfold importCSVChars
  have hsplit : (List.intercalate ['\n'] (headerChars :: rows)).splitOn '\n' =
      headerChars :: rows := by
    apply List.splitOn_intercalate
    · intro l hl
      rcases List.mem_cons.mp hl with rfl | hl
      · decide
      · exact fun hmem => (hrowsP l hl).1 '\n' hmem rfl
    · simp
  rw [hsplit]
  have hfilter : (headerChars :: rows).filter (fun l => !List.isEmpty l) =
      headerChars :: rows := by
    rw [List.filter_eq_self]
    intro a ha
    rcases List.mem_cons.mp ha with rfl | ha
    · decide
    · have hne := (hrowsP a ha).2
      cases a with
      | nil => exact absurd rfl hne
      | cons x xs => rfl
  rw [hfilter, show (headerChars :: rows).drop 1 = rows from rfl]
  exact hfm

/-- Witness for the amended round-trip law at a concrete scenario slice:
a numeric field, a boolean field and the (empty) custom-cost list. -/
theorem csv_roundtrip_amended_witness :
    importCSVChars ("Field,Value\nfar,5\ncountParkingInFAR,true\ncustomCosts,[]").data =
      ([("far", JsValue.num 5), ("countParkingInFAR", JsValue.bool true),
        ("customCosts", JsValue.list [])].map
        (fun kv => (kv.1, reimportedValue kv.2))) :=
  csv_roundtrip_amended
    [("far", JsValue.num 5), ("countParkingInFAR", JsValue.bool true),
     ("customCosts", JsValue.list [])]
    ("Field,Value\nfar,5\ncountParkingInFAR,true\ncustomCosts,[]").data
    (by intro kv hkv; fin_cases hkv <;> exact ⟨by decide, by decide⟩)
    (by intro kv hkv; fin_cases hkv <;> trivial)
    (by decide)

end CsvLemmas
